import Mathlib

/-!
# Verification of the PackStream codec (`src/v1/internal/packstream.js`)

A shallow embedding of the Packer/Unpacker pair of the repository's
`packstream.js`, together with proofs of the specification's claims about
them.  Machine integers are modelled as `Int`/`Nat` with explicit modular
reductions; the write-only channel is modelled as the list of bytes written;
fallible operations return `Except`.
-/

namespace PackStream

/-! ## Byte-level helpers (the `buf` channel primitives, external to src) -/

/-- Big-endian byte decomposition: `beBytes w n` is the `w`-byte big-endian
encoding of `n` (most significant byte first). -/
def beBytes : Nat → Nat → List Nat
  | 0, _ => []
  | w + 1, n => n / 256 ^ w % 256 :: beBytes w n

/-- Reinterpret a value in `[0, 2^32)` as a signed 32-bit integer. -/
def toSigned32 (n : Int) : Int :=
  if n < 2147483648 then n else n - 4294967296

/-- Reinterpret a value in `[0, 2^16)` as a signed 16-bit integer. -/
def toSigned16 (n : Int) : Int :=
  if n < 32768 then n else n - 65536

/-- Reinterpret a value in `[0, 2^8)` as a signed 8-bit integer. -/
def toSigned8 (n : Int) : Int :=
  if n < 128 then n else n - 256

/-- `channel.writeUInt8`: one byte, reduced mod 256. -/
def wUInt8 (n : Nat) : List Nat := [n % 256]

/-- `channel.writeInt8`: one byte, two's complement of the low 8 bits. -/
def wInt8 (v : Int) : List Nat := [(v % 256).toNat]

/-- `channel.writeInt16`: two bytes, big-endian two's complement. -/
def wInt16 (v : Int) : List Nat := beBytes 2 (v % 65536).toNat

/-- `channel.writeInt32`: four bytes, big-endian two's complement. -/
def wInt32 (v : Int) : List Nat := beBytes 4 (v % 4294967296).toNat

/-! ## The value model

JavaScript runtime values handed to `Packer.packable` / produced by
`Unpacker.unpack`: `null`, booleans, numbers (Float64, carried as their
8-byte IEEE-754 big-endian payload written by the external
`writeFloat64`), `Integer` (the 64-bit integer abstraction, carried as its
mathematical value), strings (carried as their UTF-8 byte sequence produced
by the external `utf8.encode`), arrays, objects (string-keyed, in insertion
order, as JavaScript objects are), `Structure`, and the host's `undefined`
sentinel. -/

inductive Value where
  | null : Value
  | bool (b : Bool) : Value
  | float (payload : List Nat) : Value
  | int (x : Int) : Value
  | str (bytes : List Nat) : Value
  | list (xs : List Value) : Value
  | map (entries : List (Value × Value)) : Value
  | struct (sig : Nat) (fields : List Value) : Value
  | undef : Value

mutual

/-- Structural equality test on values. -/
def vbeq : Value → Value → Bool
  | .null, .null => true
  | .bool a, .bool b => a == b
  | .float a, .float b => a == b
  | .int a, .int b => a == b
  | .str a, .str b => a == b
  | .list xs, .list ys => vbeqList xs ys
  | .map a, .map b => vbeqEntries a b
  | .struct s fs, .struct t gs => s == t && vbeqList fs gs
  | .undef, .undef => true
  | _, _ => false

/-- Element-wise equality test on value lists. -/
def vbeqList : List Value → List Value → Bool
  | [], [] => true
  | x :: xs, y :: ys => vbeq x y && vbeqList xs ys
  | _, _ => false

/-- Element-wise equality test on entry lists. -/
def vbeqEntries : List (Value × Value) → List (Value × Value) → Bool
  | [], [] => true
  | (k, v) :: xs, (l, w) :: ys => vbeq k l && vbeq v w && vbeqEntries xs ys
  | _, _ => false

end

mutual

theorem vbeq_iff : ∀ a b : Value, vbeq a b = true ↔ a = b
  | .null, b => by cases b <;> simp [vbeq]
  | .bool a, b => by cases b <;> simp [vbeq]
  | .float a, b => by cases b <;> simp [vbeq]
  | .int a, b => by cases b <;> simp [vbeq]
  | .str a, b => by cases b <;> simp [vbeq]
  | .list xs, b => by
      cases b <;> simp [vbeq]
      exact vbeqList_iff xs _
  | .map a, b => by
      cases b <;> simp [vbeq]
      exact vbeqEntries_iff a _
  | .struct s fs, b => by
      cases b <;> simp [vbeq]
      intro _
      exact vbeqList_iff fs _
  | .undef, b => by cases b <;> simp [vbeq]

theorem vbeqList_iff : ∀ xs ys : List Value, vbeqList xs ys = true ↔ xs = ys
  | [], ys => by cases ys <;> simp [vbeqList]
  | x :: xs, ys => by
      cases ys with
      | nil => simp [vbeqList]
      | cons y ys =>
          simp [vbeqList, vbeq_iff x y, vbeqList_iff xs ys]

theorem vbeqEntries_iff :
    ∀ xs ys : List (Value × Value), vbeqEntries xs ys = true ↔ xs = ys
  | [], ys => by cases ys <;> simp [vbeqEntries]
  | (k, v) :: xs, ys => by
      cases ys with
      | nil => simp [vbeqEntries]
      | cons y ys =>
          obtain ⟨l, w⟩ := y
          simp [vbeqEntries, vbeq_iff k l, vbeq_iff v w, vbeqEntries_iff xs ys,
            Prod.ext_iff, and_assoc]

end

instance : DecidableEq Value := fun a b => decidable_of_iff _ (vbeq_iff a b)

/-- `x === undefined` test used by `packable`. -/
def Value.isUndef : Value → Bool
  | .undef => true
  | _ => false

/-- JavaScript object keys are strings (`Object.keys`); for an in-grammar map
every key is a string value and the coercion to its character (byte) sequence
is the identity.  Coercions of non-string keys (host number formatting and the
like) lie outside the wire grammar and outside `src`, and are not modelled. -/
def keyToString : Value → List Nat
  | .str s => s
  | _ => []

/-! ## The Int64 abstraction -/

/-- Modelled from the spec: the `Integer` class (`src/v1/integer.js`) is not
under `src`; §3 of the spec fixes its representation invariant — an `Integer`
carries `(high : int32, low : int32)` and "represents exactly the mathematical
integer `high * 2^32 + (low & 0xFFFFFFFF)`", with comparisons agreeing with
that value.  We carry the mathematical value `x` and derive the `low` half of
its two's-complement 64-bit representation, as read by `x.low`. -/
def i64low (x : Int) : Int := toSigned32 (x % 4294967296)

/-- Modelled from the spec: the `high` half of the two's-complement 64-bit
representation of `x`, as read by `x.high` (see `i64low`). -/
def i64high (x : Int) : Int := toSigned32 (x % 18446744073709551616 / 4294967296)

/-! ## Pack results

The `Packer` writes bytes through the channel and reports failures through the
caller-supplied `onError` callback.  Two failure shapes exist in the source:
an `onError(newError(...))` call, which appends a reported error when the
caller supplied a callback and raises a host `TypeError` when it did not
(calling `undefined` as a function), and the guarded
`if (onError) onError(...)` in `packable`, which is silent when no callback
was supplied.  `thrown` records a raised host exception; once raised, no
further channel writes happen. -/

structure PackResult where
  bytes : List Nat
  errors : List String
  thrown : Option String
  deriving DecidableEq, Repr

/-- The empty result: nothing written, nothing reported. -/
def emptyPR : PackResult := ⟨[], [], none⟩

/-- A pure sequence of channel writes. -/
def prBytes (bs : List Nat) : PackResult := ⟨bs, [], none⟩

/-- Sequencing: run `r2` after `r1`; a raised exception in `r1` aborts. -/
def PackResult.append (r1 r2 : PackResult) : PackResult :=
  if r1.thrown.isSome then r1
  else ⟨r1.bytes ++ r2.bytes, r1.errors ++ r2.errors, r2.thrown⟩

/-- An unguarded `onError(newError(msg))` call: reported when the callback was
supplied, a raised `TypeError` when it was not. -/
def reportUnguarded (onError : Bool) (msg : String) : PackResult :=
  if onError then ⟨[], [msg], none⟩
  else ⟨[], [], some "TypeError: onError is not a function"⟩

/-! ## Packer -/

/-- `Packer.packInteger`: choose the narrowest tier by comparing the
mathematical value (the spec requires `Integer` comparisons to agree with it),
then write the `low`/`high` halves through the channel. -/
def packInteger (x : Int) : List Nat :=
  if -16 ≤ x ∧ x < 128 then wInt8 (i64low x)
  else if -128 ≤ x ∧ x < -16 then wUInt8 0xC8 ++ wInt8 (i64low x)
  else if -32768 ≤ x ∧ x < 32768 then wUInt8 0xC9 ++ wInt16 (i64low x)
  else if -2147483648 ≤ x ∧ x < 2147483648 then wUInt8 0xCA ++ wInt32 (i64low x)
  else wUInt8 0xCB ++ wInt32 (i64high x) ++ wInt32 (i64low x)

/-- `Packer.packString`: the string is carried as its UTF-8 byte sequence
(`utf8.encode` is external); tier chosen by byte length.  Note the 16-bit tier
writes `size/256>>0` and `size%256`, and the 32-bit tier the four big-endian
bytes, via `writeUInt8`. -/
def packString (s : List Nat) (onError : Bool) : PackResult :=
  let size := s.length
  if size < 0x10 then prBytes (wUInt8 (0x80 ||| size) ++ s)
  else if size < 0x100 then prBytes (wUInt8 0xD0 ++ wUInt8 size ++ s)
  else if size < 0x10000 then
    prBytes (wUInt8 0xD1 ++ wUInt8 (size / 256) ++ wUInt8 (size % 256) ++ s)
  else if size < 0x100000000 then
    prBytes (wUInt8 0xD2 ++ wUInt8 (size / 16777216 % 256) ++
      wUInt8 (size / 65536 % 256) ++ wUInt8 (size / 256 % 256) ++
      wUInt8 (size % 256) ++ s)
  else reportUnguarded onError
    ("UTF-8 strings of size " ++ toString size ++ " are not supported")

/-- `Packer.packListHeader`. -/
def packListHeader (size : Nat) (onError : Bool) : PackResult :=
  if size < 0x10 then prBytes (wUInt8 (0x90 ||| size))
  else if size < 0x100 then prBytes (wUInt8 0xD4 ++ wUInt8 size)
  else if size < 0x10000 then
    prBytes (wUInt8 0xD5 ++ wUInt8 (size / 256 % 256) ++ wUInt8 (size % 256))
  else if size < 0x100000000 then
    prBytes (wUInt8 0xD6 ++ wUInt8 (size / 16777216 % 256) ++
      wUInt8 (size / 65536 % 256) ++ wUInt8 (size / 256 % 256) ++
      wUInt8 (size % 256))
  else reportUnguarded onError
    ("Lists of size " ++ toString size ++ " are not supported")

/-- `Packer.packMapHeader`. -/
def packMapHeader (size : Nat) (onError : Bool) : PackResult :=
  if size < 0x10 then prBytes (wUInt8 (0xA0 ||| size))
  else if size < 0x100 then prBytes (wUInt8 0xD8 ++ wUInt8 size)
  else if size < 0x10000 then
    prBytes (wUInt8 0xD9 ++ wUInt8 (size / 256) ++ wUInt8 (size % 256))
  else if size < 0x100000000 then
    prBytes (wUInt8 0xDA ++ wUInt8 (size / 16777216 % 256) ++
      wUInt8 (size / 65536 % 256) ++ wUInt8 (size / 256 % 256) ++
      wUInt8 (size % 256))
  else reportUnguarded onError
    ("Maps of size " ++ toString size ++ " are not supported")

/-- `Packer.packStructHeader`.  The `STRUCT_16` branch writes the marker and
the two size bytes only — unlike the tiny and `STRUCT_8` branches it does not
write the signature byte. -/
def packStructHeader (size : Nat) (sig : Nat) (onError : Bool) : PackResult :=
  if size < 0x10 then prBytes (wUInt8 (0xB0 ||| size) ++ wUInt8 sig)
  else if size < 0x100 then prBytes (wUInt8 0xDC ++ wUInt8 size ++ wUInt8 sig)
  else if size < 0x10000 then
    prBytes (wUInt8 0xDD ++ wUInt8 (size / 256) ++ wUInt8 (size % 256))
  else reportUnguarded onError
    ("Structures of size " ++ toString size ++ " are not supported")

mutual

/-- The errors `packable(x, onError)` reports while *building* the packable
closure, before it is invoked: the guarded `onError` call of the unencodable
branch, which the `Structure` branch triggers for its fields by calling
`packable` on them eagerly.  All other branches defer their work to the
returned closure. -/
def buildErrors (onError : Bool) : Value → List String
  | .undef =>
      if onError then ["Cannot pack this value: undefined"] else []
  | .struct _ fields => buildErrorsFields onError fields
  | _ => []

/-- Build-time errors of a `Structure`'s field list (see `buildErrors`). -/
def buildErrorsFields (onError : Bool) : List Value → List String
  | [] => []
  | f :: fs => buildErrors onError f ++ buildErrorsFields onError fs

end

mutual

/-- Running the closure returned by `Packer.packable(x, onError)`.  The
`Structure` branch reaches `packStruct`, which is called without forwarding
`onError`; the map branch packs each key via `packString(key)`, likewise
without `onError`. -/
def packRun (onError : Bool) : Value → PackResult
  | .null => prBytes (wUInt8 0xC0)
  | .bool true => prBytes (wUInt8 0xC3)
  | .bool false => prBytes (wUInt8 0xC2)
  | .float payload => prBytes (wUInt8 0xC1 ++ payload)
  | .int x => prBytes (packInteger x)
  | .str s => packString s onError
  | .list xs =>
      (packListHeader xs.length onError).append (packRunListElems onError xs)
  | .map entries =>
      (packMapHeader
          (entries.filter (fun e => !(e.2.isUndef))).length onError).append
        (packRunMapEntries onError entries)
  | .struct sig fields =>
      (packStructHeader fields.length sig false).append
        (packRunStructFields onError fields)
  | .undef => emptyPR

/-- The element loop of the array branch: each element is substituted by
`null` when it is `undefined` (`x[i] === undefined ? null : x[i]`), then
packed (built and run); packing `null` writes the `NULL` marker. -/
def packRunListElems (onError : Bool) : List Value → PackResult
  | [] => emptyPR
  | .undef :: es =>
      ((⟨[], buildErrors onError .null, none⟩ : PackResult).append
          (prBytes (wUInt8 0xC0))).append
        (packRunListElems onError es)
  | e :: es =>
      ((⟨[], buildErrors onError e, none⟩ : PackResult).append
          (packRun onError e)).append
        (packRunListElems onError es)

/-- The entry loop of the map branch: entries whose value is `undefined` are
skipped; surviving keys are packed by `packString(key)` with no `onError`. -/
def packRunMapEntries (onError : Bool) : List (Value × Value) → PackResult
  | [] => emptyPR
  | (k, v) :: es =>
      if v.isUndef then packRunMapEntries onError es
      else
        ((packString (keyToString k) false).append
            ((⟨[], buildErrors onError v, none⟩ : PackResult).append
              (packRun onError v))).append
          (packRunMapEntries onError es)

/-- The field loop of `packStruct`: the fields were already built by
`packable`, so running only invokes their closures. -/
def packRunStructFields (onError : Bool) : List Value → PackResult
  | [] => emptyPR
  | f :: fs => (packRun onError f).append (packRunStructFields onError fs)

end

/-- `packer.packable(x, onError)()`: build the packable closure, then invoke
it — build-time reports first, then the closure's channel writes. -/
def packFull (onError : Bool) (v : Value) : PackResult :=
  (⟨[], buildErrors onError v, none⟩ : PackResult).append (packRun onError v)

/-! ## Byte source (the read-only `buf` abstraction, external to src)

Each reader consumes bytes from the front of the remaining stream;
a truncated stream is the source's own failure, which `Unpacker` propagates
unchanged. -/

/-- The failure raised by the byte source on a truncated stream. -/
def endOfStream : String := "End of stream"

/-- `buffer.readUInt8`. -/
def readUInt8 : List Nat → Except String (Nat × List Nat)
  | [] => .error endOfStream
  | b :: bs => .ok (b, bs)

/-- `buffer.readUInt16`: two bytes, big-endian. -/
def readUInt16 : List Nat → Except String (Nat × List Nat)
  | b0 :: b1 :: bs => .ok (b0 * 256 + b1, bs)
  | _ => .error endOfStream

/-- `buffer.readUInt32`: four bytes, big-endian. -/
def readUInt32 : List Nat → Except String (Nat × List Nat)
  | b0 :: b1 :: b2 :: b3 :: bs =>
      .ok (b0 * 16777216 + b1 * 65536 + b2 * 256 + b3, bs)
  | _ => .error endOfStream

/-- `buffer.readInt8`: one byte, two's complement. -/
def readInt8 : List Nat → Except String (Int × List Nat)
  | [] => .error endOfStream
  | b :: bs => .ok (toSigned8 b, bs)

/-- `buffer.readInt16`: two bytes, big-endian two's complement. -/
def readInt16 : List Nat → Except String (Int × List Nat)
  | b0 :: b1 :: bs => .ok (toSigned16 (b0 * 256 + b1), bs)
  | _ => .error endOfStream

/-- `buffer.readInt32`: four bytes, big-endian two's complement. -/
def readInt32 : List Nat → Except String (Int × List Nat)
  | b0 :: b1 :: b2 :: b3 :: bs =>
      .ok (toSigned32 (b0 * 16777216 + b1 * 65536 + b2 * 256 + b3), bs)
  | _ => .error endOfStream

/-- `buffer.readFloat64`: eight bytes, returned as the IEEE-754 payload. -/
def readFloat64 (bs : List Nat) : Except String (List Nat × List Nat) :=
  if 8 ≤ bs.length then .ok (bs.take 8, bs.drop 8) else .error endOfStream

/-- `utf8.decode(buffer, byteCount)`: consumes exactly `byteCount` bytes and
returns them as the string's byte sequence. -/
def utf8decode (count : Nat) (bs : List Nat) :
    Except String (List Nat × List Nat) :=
  if count ≤ bs.length then .ok (bs.take count, bs.drop count)
  else .error endOfStream

/-! ## Unpacker -/

/-- One lowercase hexadecimal digit, as produced by `Number.toString(16)`. -/
def hexDigit (n : Nat) : Char :=
  if n < 10 then Char.ofNat (48 + n) else Char.ofNat (87 + n)

/-- `marker.toString(16)` for a byte value: lowercase hexadecimal digits with
no prefix (one digit below 16, two digits otherwise). -/
def jsHex (n : Nat) : String :=
  if n < 16 then String.mk [hexDigit n]
  else String.mk [hexDigit (n / 16), hexDigit (n % 16)]

/-- The `structMappers` registry: a signature keyed mapping to decoder
functions `(unpacker, buffer) → value`; a mapper consumes bytes from the
source and returns its result verbatim. -/
def Mappers : Type :=
  Nat → Option (List Nat → Except String (Value × List Nat))

/-- The registry of a fresh `Unpacker` (`structMappers = {}`). -/
def noMappers : Mappers := fun _ => none

instance {e a : Type} [DecidableEq e] [DecidableEq a] :
    DecidableEq (Except e a) := fun x y =>
  match x, y with
  | .ok u, .ok v =>
      if h : u = v then isTrue (by rw [h]) else isFalse (by simp [h])
  | .error u, .error v =>
      if h : u = v then isTrue (by rw [h]) else isFalse (by simp [h])
  | .ok _, .error _ => isFalse (by simp)
  | .error _, .ok _ => isFalse (by simp)

/-- JavaScript property assignment `value[key] = v` on the object being
built: overwriting an existing key keeps its original insertion position,
a new key is appended. -/
def objInsert (es : List (Value × Value)) (k v : Value) :
    List (Value × Value) :=
  if es.any (fun e => e.1 = k) then
    es.map (fun e => if e.1 = k then (k, v) else e)
  else es ++ [(k, v)]

/-- The loop of `Unpacker.unpackList`, with the element decoder passed in:
unpack `n` values in order. -/
def unpackN (u : List Nat → Except String (Value × List Nat)) :
    Nat → List Nat → Except String (List Value × List Nat)
  | 0, bs => .ok ([], bs)
  | n + 1, bs => do
      let (v, bs1) ← u bs
      let (vs, bs2) ← unpackN u n bs1
      .ok (v :: vs, bs2)

/-- The loop of `Unpacker.unpackMap`: unpack a key then a value `n` times,
assigning `value[key] = v` into the object being built. -/
def unpackMapN (u : List Nat → Except String (Value × List Nat)) :
    Nat → List (Value × Value) → List Nat →
    Except String (List (Value × Value) × List Nat)
  | 0, acc, bs => .ok (acc, bs)
  | n + 1, acc, bs => do
      let (k, bs1) ← u bs
      let (v, bs2) ← u bs1
      unpackMapN u n (objInsert acc k v) bs2

/-- `Unpacker.unpackStruct`: read the signature byte, then either hand the
source to the registered mapper, whose return value is used verbatim, or
unpack `size` fields into a `Structure`.  The field loop has the same shape
as the list loop, so `unpackN` is reused for it. -/
def unpackStruct (M : Mappers)
    (u : List Nat → Except String (Value × List Nat)) (size : Nat)
    (bs : List Nat) : Except String (Value × List Nat) := do
  let (sig, bs1) ← readUInt8 bs
  match M sig with
  | some mapper => mapper bs1
  | none => do
      let (fs, bs2) ← unpackN u size bs1
      .ok (.struct sig fs, bs2)

/-- `Unpacker.unpack`: read one marker byte and dispatch, in the branch order
of the source.  The `fuel` argument only bounds recursion depth so that the
definition is total; every theorem below supplies enough of it. -/
def unpack (M : Mappers) : Nat → List Nat → Except String (Value × List Nat)
  | 0, _ => .error "recursion depth exhausted"
  | fuel + 1, bs => do
      let (marker, bs1) ← readUInt8 bs
      if marker = 0xC0 then .ok (.null, bs1)
      else if marker = 0xC3 then .ok (.bool true, bs1)
      else if marker = 0xC2 then .ok (.bool false, bs1)
      else if marker = 0xC1 then do
        let (p, bs2) ← readFloat64 bs1
        .ok (.float p, bs2)
      else if marker < 128 then .ok (.int marker, bs1)
      else if 240 ≤ marker ∧ marker < 256 then
        .ok (.int ((marker : Int) - 256), bs1)
      else if marker = 0xC8 then do
        let (v, bs2) ← readInt8 bs1
        .ok (.int v, bs2)
      else if marker = 0xC9 then do
        let (v, bs2) ← readInt16 bs1
        .ok (.int v, bs2)
      else if marker = 0xCA then do
        let (v, bs2) ← readInt32 bs1
        .ok (.int v, bs2)
      else if marker = 0xCB then do
        let (high, bs2) ← readInt32 bs1
        let (low, bs3) ← readInt32 bs2
        .ok (.int (high * 4294967296 + low % 4294967296), bs3)
      else if marker = 0xD0 then do
        let (n, bs2) ← readUInt8 bs1
        let (s, bs3) ← utf8decode n bs2
        .ok (.str s, bs3)
      else if marker = 0xD1 then do
        let (n, bs2) ← readUInt16 bs1
        let (s, bs3) ← utf8decode n bs2
        .ok (.str s, bs3)
      else if marker = 0xD2 then do
        let (n, bs2) ← readUInt32 bs1
        let (s, bs3) ← utf8decode n bs2
        .ok (.str s, bs3)
      else if marker = 0xD4 then do
        let (n, bs2) ← readUInt8 bs1
        let (vs, bs3) ← unpackN (unpack M fuel) n bs2
        .ok (.list vs, bs3)
      else if marker = 0xD5 then do
        let (n, bs2) ← readUInt16 bs1
        let (vs, bs3) ← unpackN (unpack M fuel) n bs2
        .ok (.list vs, bs3)
      else if marker = 0xD6 then do
        let (n, bs2) ← readUInt32 bs1
        let (vs, bs3) ← unpackN (unpack M fuel) n bs2
        .ok (.list vs, bs3)
      else if marker = 0xD8 then do
        let (n, bs2) ← readUInt8 bs1
        let (es, bs3) ← unpackMapN (unpack M fuel) n [] bs2
        .ok (.map es, bs3)
      else if marker = 0xD9 then do
        let (n, bs2) ← readUInt16 bs1
        let (es, bs3) ← unpackMapN (unpack M fuel) n [] bs2
        .ok (.map es, bs3)
      else if marker = 0xDA then do
        let (n, bs2) ← readUInt32 bs1
        let (es, bs3) ← unpackMapN (unpack M fuel) n [] bs2
        .ok (.map es, bs3)
      else if marker = 0xDC then do
        let (n, bs2) ← readUInt8 bs1
        unpackStruct M (unpack M fuel) n bs2
      else if marker = 0xDD then do
        let (n, bs2) ← readUInt16 bs1
        unpackStruct M (unpack M fuel) n bs2
      else
        let markerHigh := marker &&& 0xF0
        let markerLow := marker &&& 0x0F
        if markerHigh = 0x80 then do
          let (s, bs2) ← utf8decode markerLow bs1
          .ok (.str s, bs2)
        else if markerHigh = 0x90 then do
          let (vs, bs2) ← unpackN (unpack M fuel) markerLow bs1
          .ok (.list vs, bs2)
        else if markerHigh = 0xA0 then do
          let (es, bs2) ← unpackMapN (unpack M fuel) markerLow [] bs1
          .ok (.map es, bs2)
        else if markerHigh = 0xB0 then
          unpackStruct M (unpack M fuel) markerLow bs1
        else
          .error ("Unknown packed value with marker " ++ jsHex marker)

/-! ## In-grammar values

`wf v` delimits the values the round-trip law quantifies over: real byte
payloads, integers in the 64-bit signed range, strings/lists/maps below the
32-bit size tiers, string map keys with no duplicates (a JavaScript object
cannot hold two equal string keys), no `undefined`, and structures of fewer
than 256 fields (the `STRUCT_16` pack tier drops the signature byte, so
structures at or above 256 fields do not survive; see the claims below). -/

mutual

/-- In-grammar values (see section comment). -/
def wf : Value → Bool
  | .null => true
  | .bool _ => true
  | .float p => p.length = 8 && p.all (fun b => b < 256)
  | .int x => decide (-9223372036854775808 ≤ x) && decide (x < 9223372036854775808)
  | .str s => s.length < 4294967296 && s.all (fun b => b < 256)
  | .list xs => xs.length < 4294967296 && wfList xs
  | .map es =>
      es.length < 4294967296 && decide (es.map Prod.fst).Nodup && wfEntries es
  | .struct sig fs => sig < 256 && fs.length < 256 && wfList fs
  | .undef => false

/-- All elements in-grammar. -/
def wfList : List Value → Bool
  | [] => true
  | x :: xs => wf x && wfList xs

/-- All entries in-grammar: keys are in-grammar strings, values in-grammar. -/
def wfEntries : List (Value × Value) → Bool
  | [] => true
  | (k, v) :: es =>
      (match k with
        | .str s => s.length < 4294967296 && s.all (fun b => b < 256)
        | _ => false) && wf v && wfEntries es

end

mutual

/-- The number of `unpack` invocations consumed when decoding `v`: one for
the value itself, one per list element, struct field and map value, and one
per map key. -/
def nodes : Value → Nat
  | .list xs => 1 + nodesList xs
  | .map es => 1 + nodesEntries es
  | .struct _ fs => 1 + nodesList fs
  | _ => 1

/-- Total decoding cost of a list of values. -/
def nodesList : List Value → Nat
  | [] => 0
  | x :: xs => nodes x + nodesList xs

/-- Total decoding cost of the entries of a map. -/
def nodesEntries : List (Value × Value) → Nat
  | [] => 0
  | (_, v) :: es => 1 + nodes v + nodesEntries es

end

theorem nodes_pos (v : Value) : 1 ≤ nodes v := by
  cases v <;> simp [nodes]

/-! ## Specification-side definitions

These are written from the spec's words, to be compared with the functions
embedded from the source. -/

/-- The `w`-byte big-endian two's-complement encoding of `x`. -/
def twosBE (w : Nat) (x : Int) : List Nat :=
  beBytes w (x % ((2 : Int) ^ (8 * w))).toNat

/-- Modelled from the spec: the §4.2 integer tier table — the narrowest tier
admitting the value, in the table's order: tiny (raw signed byte), `0xC8` + 1
byte, `0xC9` + 2 bytes, `0xCA` + 4 bytes, else `0xCB` + 8 bytes (high 32 bits
then low 32 bits, i.e. the 8-byte two's complement, big-endian). -/
def intTierSpec (x : Int) : List Nat :=
  if -16 ≤ x ∧ x < 128 then twosBE 1 x
  else if -128 ≤ x ∧ x < -16 then 0xC8 :: twosBE 1 x
  else if -32768 ≤ x ∧ x < 32768 then 0xC9 :: twosBE 2 x
  else if -2147483648 ≤ x ∧ x < 2147483648 then 0xCA :: twosBE 4 x
  else 0xCB :: twosBE 8 x

/-- The element substitution of the array branch,
`x[i] === undefined ? null : x[i]`. -/
def substUndef : Value → Value
  | .undef => .null
  | e => e

/-- The single-byte inputs outside the marker grammar (§8.5 of the spec). -/
def badMarkers : List Nat :=
  [0xC4, 0xC5, 0xC6, 0xC7, 0xCC, 0xCD, 0xCE, 0xCF, 0xD3, 0xD7, 0xDB,
   0xDE, 0xDF, 0xE0, 0xE1, 0xE2, 0xE3, 0xE4, 0xE5, 0xE6, 0xE7, 0xE8,
   0xE9, 0xEA, 0xEB, 0xEC, 0xED, 0xEE, 0xEF]

/-- The bytes of a run of packed values, one per list element — what the
element/field loops write when nothing is reported or raised. -/
def packedList (b : Bool) : List Value → List Nat
  | [] => []
  | x :: xs => (packRun b x).bytes ++ packedList b xs

/-- The bytes of a run of packed map entries: each key as a string, then its
value. -/
def packedEntries (b : Bool) : List (Value × Value) → List Nat
  | [] => []
  | (k, v) :: es =>
      (packString (keyToString k) false).bytes ++ (packRun b v).bytes ++
        packedEntries b es

/-! ## Sanity checks: the spec's concrete byte scenarios (§8) -/

example : (packFull true .null).bytes = [0xC0] := by decide
example : (packFull true (.bool true)).bytes = [0xC3] := by decide
example : (packFull true (.bool false)).bytes = [0xC2] := by decide
example : (packFull true (.int 0)).bytes = [0x00] := by decide
example : (packFull true (.int 127)).bytes = [0x7F] := by decide
example : (packFull true (.int (-1))).bytes = [0xFF] := by decide
example : (packFull true (.int (-16))).bytes = [0xF0] := by decide
example : (packFull true (.int (-17))).bytes = [0xC8, 0xEF] := by decide
example : (packFull true (.int 128)).bytes = [0xC9, 0x00, 0x80] := by decide
example : (packFull true (.int 32768)).bytes = [0xCA, 0, 0, 0x80, 0] := by
  decide
example : (packFull true (.str [])).bytes = [0x80] := by decide
example : (packFull true (.str [0x41])).bytes = [0x81, 0x41] := by decide
example : (packFull true (.list [.int 1, .int 2, .int 3])).bytes =
    [0x93, 1, 2, 3] := by decide
example : (packFull true (.map [(.str [0x61], .int 1)])).bytes =
    [0xA1, 0x81, 0x61, 0x01] := by decide
example : (packFull true (.map [(.str [0x61], .int 1),
    (.str [0x62], .undef)])).bytes = [0xA1, 0x81, 0x61, 0x01] := by decide
example : (packFull true (.struct 0x4E [.int 1, .str [0x78]])).bytes =
    [0xB2, 0x4E, 0x01, 0x81, 0x78] := by decide
example : unpack noMappers 2
    [0xC1, 0x40, 0x09, 0x21, 0xFB, 0x54, 0x44, 0x2D, 0x18] =
    .ok (.float [0x40, 0x09, 0x21, 0xFB, 0x54, 0x44, 0x2D, 0x18], []) := by
  decide
example : unpack noMappers 9
    ((packFull true (.list [.int (-42), .str [0x68, 0x69], .bool true,
      .map [(.str [0x61], .null)], .struct 7 [.int 300]])).bytes) =
    .ok (.list [.int (-42), .str [0x68, 0x69], .bool true,
      .map [(.str [0x61], .null)], .struct 7 [.int 300]], []) := by decide

/-! ## Result-plumbing lemmas -/

theorem append_bytes (r1 r2 : PackResult) (h : r1.thrown = none) :
    (r1.append r2).bytes = r1.bytes ++ r2.bytes := by
  simp [PackResult.append, h]

theorem append_thrown (r1 r2 : PackResult) (h1 : r1.thrown = none) :
    (r1.append r2).thrown = r2.thrown := by
  simp [PackResult.append, h1]

theorem packFull_bytes (b : Bool) (v : Value) :
    (packFull b v).bytes = (packRun b v).bytes := by
  simp [packFull, PackResult.append]

/-! ## Marker bit patterns -/

theorem lor128 (n : Nat) (h : n < 16) : 128 ||| n = 128 + n := by
  interval_cases n <;> rfl

theorem lor144 (n : Nat) (h : n < 16) : 144 ||| n = 144 + n := by
  interval_cases n <;> rfl

theorem lor160 (n : Nat) (h : n < 16) : 160 ||| n = 160 + n := by
  interval_cases n <;> rfl

theorem lor176 (n : Nat) (h : n < 16) : 176 ||| n = 176 + n := by
  interval_cases n <;> rfl

theorem and240_str (n : Nat) (h : n < 16) : (128 + n) &&& 240 = 128 := by
  interval_cases n <;> rfl

theorem and15_str (n : Nat) (h : n < 16) : (128 + n) &&& 15 = n := by
  interval_cases n <;> rfl

theorem and240_list (n : Nat) (h : n < 16) : (144 + n) &&& 240 = 144 := by
  interval_cases n <;> rfl

theorem and15_list (n : Nat) (h : n < 16) : (144 + n) &&& 15 = n := by
  interval_cases n <;> rfl

theorem and240_map (n : Nat) (h : n < 16) : (160 + n) &&& 240 = 160 := by
  interval_cases n <;> rfl

theorem and15_map (n : Nat) (h : n < 16) : (160 + n) &&& 15 = n := by
  interval_cases n <;> rfl

theorem and240_struct (n : Nat) (h : n < 16) : (176 + n) &&& 240 = 176 := by
  interval_cases n <;> rfl

theorem and15_struct (n : Nat) (h : n < 16) : (176 + n) &&& 15 = n := by
  interval_cases n <;> rfl

/-! ## Decode dispatch lemmas, one per marker family -/

theorem unpack_tiny_pos (M : Mappers) (f m : Nat) (bs : List Nat)
    (h : m < 128) :
    unpack M (f + 1) (m :: bs) = .ok (.int m, bs) := by
  simp only [unpack, readUInt8, bind, Except.bind]
  rw [if_neg (by omega), if_neg (by omega), if_neg (by omega),
    if_neg (by omega), if_pos (by omega)]

theorem unpack_tiny_neg (M : Mappers) (f m : Nat) (bs : List Nat)
    (h1 : 240 ≤ m) (h2 : m < 256) :
    unpack M (f + 1) (m :: bs) = .ok (.int ((m : Int) - 256), bs) := by
  simp only [unpack, readUInt8, bind, Except.bind]
  rw [if_neg (by omega), if_neg (by omega), if_neg (by omega),
    if_neg (by omega), if_neg (by omega), if_pos (by omega)]

theorem unpack_null (M : Mappers) (f : Nat) (bs : List Nat) :
    unpack M (f + 1) (0xC0 :: bs) = .ok (.null, bs) := by
  simp [unpack, readUInt8, bind, Except.bind]

theorem unpack_true (M : Mappers) (f : Nat) (bs : List Nat) :
    unpack M (f + 1) (0xC3 :: bs) = .ok (.bool true, bs) := by
  simp [unpack, readUInt8, bind, Except.bind]

theorem unpack_false (M : Mappers) (f : Nat) (bs : List Nat) :
    unpack M (f + 1) (0xC2 :: bs) = .ok (.bool false, bs) := by
  simp [unpack, readUInt8, bind, Except.bind]

theorem unpack_float64 (M : Mappers) (f : Nat) (bs : List Nat)
    (h : 8 ≤ bs.length) :
    unpack M (f + 1) (0xC1 :: bs) = .ok (.float (bs.take 8), bs.drop 8) := by
  simp [unpack, readUInt8, readFloat64, bind, Except.bind, h]

theorem unpack_int8 (M : Mappers) (f b0 : Nat) (bs : List Nat) :
    unpack M (f + 1) (0xC8 :: b0 :: bs) = .ok (.int (toSigned8 b0), bs) := by
  simp [unpack, readUInt8, readInt8, bind, Except.bind]

theorem unpack_int16 (M : Mappers) (f b0 b1 : Nat) (bs : List Nat) :
    unpack M (f + 1) (0xC9 :: b0 :: b1 :: bs) =
      .ok (.int (toSigned16 (b0 * 256 + b1)), bs) := by
  simp [unpack, readUInt8, readInt16, bind, Except.bind]

theorem unpack_int32 (M : Mappers) (f b0 b1 b2 b3 : Nat) (bs : List Nat) :
    unpack M (f + 1) (0xCA :: b0 :: b1 :: b2 :: b3 :: bs) =
      .ok (.int (toSigned32 (b0 * 16777216 + b1 * 65536 + b2 * 256 + b3)),
        bs) := by
  simp [unpack, readUInt8, readInt32, bind, Except.bind]

theorem unpack_int64 (M : Mappers) (f a0 a1 a2 a3 b0 b1 b2 b3 : Nat)
    (bs : List Nat) :
    unpack M (f + 1) (0xCB :: a0 :: a1 :: a2 :: a3 :: b0 :: b1 :: b2 :: b3
        :: bs) =
      .ok (.int (toSigned32 (a0 * 16777216 + a1 * 65536 + a2 * 256 + a3) *
          4294967296 +
          toSigned32 (b0 * 16777216 + b1 * 65536 + b2 * 256 + b3) %
            4294967296), bs) := by
  simp [unpack, readUInt8, readInt32, bind, Except.bind]

theorem unpack_str8 (M : Mappers) (f n : Nat) (bs : List Nat)
    (h : n ≤ bs.length) :
    unpack M (f + 1) (0xD0 :: n :: bs) =
      .ok (.str (bs.take n), bs.drop n) := by
  simp [unpack, readUInt8, utf8decode, bind, Except.bind, h]

theorem unpack_str16 (M : Mappers) (f b0 b1 : Nat) (bs : List Nat)
    (h : b0 * 256 + b1 ≤ bs.length) :
    unpack M (f + 1) (0xD1 :: b0 :: b1 :: bs) =
      .ok (.str (bs.take (b0 * 256 + b1)), bs.drop (b0 * 256 + b1)) := by
  simp [unpack, readUInt8, readUInt16, utf8decode, bind, Except.bind, h]

theorem unpack_str32 (M : Mappers) (f b0 b1 b2 b3 : Nat) (bs : List Nat)
    (h : b0 * 16777216 + b1 * 65536 + b2 * 256 + b3 ≤ bs.length) :
    unpack M (f + 1) (0xD2 :: b0 :: b1 :: b2 :: b3 :: bs) =
      .ok (.str (bs.take (b0 * 16777216 + b1 * 65536 + b2 * 256 + b3)),
        bs.drop (b0 * 16777216 + b1 * 65536 + b2 * 256 + b3)) := by
  simp [unpack, readUInt8, readUInt32, utf8decode, bind, Except.bind, h]

theorem unpack_list8 (M : Mappers) (f n : Nat) (bs : List Nat) :
    unpack M (f + 1) (0xD4 :: n :: bs) = (do
      let (vs, r) ← unpackN (unpack M f) n bs
      .ok (.list vs, r)) := by
  simp [unpack, readUInt8, bind, Except.bind]

theorem unpack_list16 (M : Mappers) (f b0 b1 : Nat) (bs : List Nat) :
    unpack M (f + 1) (0xD5 :: b0 :: b1 :: bs) = (do
      let (vs, r) ← unpackN (unpack M f) (b0 * 256 + b1) bs
      .ok (.list vs, r)) := by
  simp [unpack, readUInt8, readUInt16, bind, Except.bind]

theorem unpack_list32 (M : Mappers) (f b0 b1 b2 b3 : Nat) (bs : List Nat) :
    unpack M (f + 1) (0xD6 :: b0 :: b1 :: b2 :: b3 :: bs) = (do
      let (vs, r) ←
        unpackN (unpack M f) (b0 * 16777216 + b1 * 65536 + b2 * 256 + b3) bs
      .ok (.list vs, r)) := by
  simp [unpack, readUInt8, readUInt32, bind, Except.bind]

theorem unpack_map8 (M : Mappers) (f n : Nat) (bs : List Nat) :
    unpack M (f + 1) (0xD8 :: n :: bs) = (do
      let (es, r) ← unpackMapN (unpack M f) n [] bs
      .ok (.map es, r)) := by
  simp [unpack, readUInt8, bind, Except.bind]

theorem unpack_map16 (M : Mappers) (f b0 b1 : Nat) (bs : List Nat) :
    unpack M (f + 1) (0xD9 :: b0 :: b1 :: bs) = (do
      let (es, r) ← unpackMapN (unpack M f) (b0 * 256 + b1) [] bs
      .ok (.map es, r)) := by
  simp [unpack, readUInt8, readUInt16, bind, Except.bind]

theorem unpack_map32 (M : Mappers) (f b0 b1 b2 b3 : Nat) (bs : List Nat) :
    unpack M (f + 1) (0xDA :: b0 :: b1 :: b2 :: b3 :: bs) = (do
      let (es, r) ←
        unpackMapN (unpack M f) (b0 * 16777216 + b1 * 65536 + b2 * 256 + b3)
          [] bs
      .ok (.map es, r)) := by
  simp [unpack, readUInt8, readUInt32, bind, Except.bind]

theorem unpack_struct8 (M : Mappers) (f n : Nat) (bs : List Nat) :
    unpack M (f + 1) (0xDC :: n :: bs) =
      unpackStruct M (unpack M f) n bs := by
  simp [unpack, readUInt8, bind, Except.bind]

theorem unpack_struct16 (M : Mappers) (f b0 b1 : Nat) (bs : List Nat) :
    unpack M (f + 1) (0xDD :: b0 :: b1 :: bs) =
      unpackStruct M (unpack M f) (b0 * 256 + b1) bs := by
  simp [unpack, readUInt8, readUInt16, bind, Except.bind]

theorem notTaken {c : Prop} [Decidable c] {α : Sort v} {t e : α}
    (h : ¬ c) : (if c then t else e) = e := if_neg h

theorem unpack_str_tiny (M : Mappers) (f n : Nat) (bs : List Nat)
    (h : n < 16) (hlen : n ≤ bs.length) :
    unpack M (f + 1) ((128 + n) :: bs) =
      .ok (.str (bs.take n), bs.drop n) := by
  simp only [unpack, readUInt8, bind, Except.bind]
  rw [notTaken (by omega), notTaken (by omega), notTaken (by omega), notTaken (by omega), notTaken (by omega), notTaken (by omega), notTaken (by omega), notTaken (by omega), notTaken (by omega), notTaken (by omega), notTaken (by omega), notTaken (by omega), notTaken (by omega), notTaken (by omega), notTaken (by omega), notTaken (by omega), notTaken (by omega), notTaken (by omega), notTaken (by omega), notTaken (by omega), notTaken (by omega),
    and240_str n h, and15_str n h, if_pos rfl]
  simp [utf8decode, hlen]

theorem unpack_list_tiny (M : Mappers) (f n : Nat) (bs : List Nat)
    (h : n < 16) :
    unpack M (f + 1) ((144 + n) :: bs) = (do
      let (vs, r) ← unpackN (unpack M f) n bs
      .ok (.list vs, r)) := by
  simp only [unpack, readUInt8, bind, Except.bind]
  rw [notTaken (by omega), notTaken (by omega), notTaken (by omega), notTaken (by omega), notTaken (by omega), notTaken (by omega), notTaken (by omega), notTaken (by omega), notTaken (by omega), notTaken (by omega), notTaken (by omega), notTaken (by omega), notTaken (by omega), notTaken (by omega), notTaken (by omega), notTaken (by omega), notTaken (by omega), notTaken (by omega), notTaken (by omega), notTaken (by omega), notTaken (by omega),
    and240_list n h, and15_list n h, if_neg (by omega), if_pos rfl]

theorem unpack_map_tiny (M : Mappers) (f n : Nat) (bs : List Nat)
    (h : n < 16) :
    unpack M (f + 1) ((160 + n) :: bs) = (do
      let (es, r) ← unpackMapN (unpack M f) n [] bs
      .ok (.map es, r)) := by
  simp only [unpack, readUInt8, bind, Except.bind]
  rw [notTaken (by omega), notTaken (by omega), notTaken (by omega), notTaken (by omega), notTaken (by omega), notTaken (by omega), notTaken (by omega), notTaken (by omega), notTaken (by omega), notTaken (by omega), notTaken (by omega), notTaken (by omega), notTaken (by omega), notTaken (by omega), notTaken (by omega), notTaken (by omega), notTaken (by omega), notTaken (by omega), notTaken (by omega), notTaken (by omega), notTaken (by omega),
    and240_map n h, and15_map n h, if_neg (by omega), if_neg (by omega),
    if_pos rfl]

theorem unpack_struct_tiny (M : Mappers) (f n : Nat) (bs : List Nat)
    (h : n < 16) :
    unpack M (f + 1) ((176 + n) :: bs) =
      unpackStruct M (unpack M f) n bs := by
  simp only [unpack, readUInt8, bind, Except.bind]
  rw [notTaken (by omega), notTaken (by omega), notTaken (by omega), notTaken (by omega), notTaken (by omega), notTaken (by omega), notTaken (by omega), notTaken (by omega), notTaken (by omega), notTaken (by omega), notTaken (by omega), notTaken (by omega), notTaken (by omega), notTaken (by omega), notTaken (by omega), notTaken (by omega), notTaken (by omega), notTaken (by omega), notTaken (by omega), notTaken (by omega), notTaken (by omega),
    and240_struct n h, and15_struct n h, if_neg (by omega),
    if_neg (by omega), if_neg (by omega), if_pos rfl]

/-! ## Modular-arithmetic facts about the Int64 halves -/

theorem i64low_emod256 (x : Int) : i64low x % 256 = x % 256 := by
  unfold i64low toSigned32
  split <;> omega

theorem i64low_emod65536 (x : Int) : i64low x % 65536 = x % 65536 := by
  unfold i64low toSigned32
  split <;> omega

theorem i64low_emod32 (x : Int) :
    i64low x % 4294967296 = x % 4294967296 := by
  unfold i64low toSigned32
  split <;> omega

theorem i64low_bounds (x : Int) :
    -2147483648 ≤ i64low x ∧ i64low x < 2147483648 := by
  unfold i64low toSigned32
  split <;> omega

theorem i64high_bounds (x : Int) :
    -2147483648 ≤ i64high x ∧ i64high x < 2147483648 := by
  unfold i64high toSigned32
  split <;> omega

theorem i64_split (x : Int) (hlo : -9223372036854775808 ≤ x)
    (hhi : x < 9223372036854775808) :
    i64high x * 4294967296 + i64low x % 4294967296 = x := by
  unfold i64high i64low toSigned32
  split <;> split <;> omega

/-! ## Round-trip of a packed integer -/

set_option maxHeartbeats 1000000 in
theorem unpack_packInteger (M : Mappers) (f : Nat) (x : Int) (bs : List Nat)
    (hlo : -9223372036854775808 ≤ x) (hhi : x < 9223372036854775808) :
    unpack M (f + 1) (packInteger x ++ bs) = .ok (.int x, bs) := by
  have e256 := i64low_emod256 x
  have e65536 := i64low_emod65536 x
  have e32 := i64low_emod32 x
  unfold packInteger
  split_ifs with h1 h2 h3 h4
  · -- tiny: one raw signed byte
    simp only [wInt8, List.cons_append, List.nil_append]
    rcases le_or_lt 0 x with hx | hx
    · rw [unpack_tiny_pos M f _ bs (by omega)]
      simp only [Except.ok.injEq, Prod.mk.injEq, Value.int.injEq]
      constructor
      · omega
      · trivial
    · rw [unpack_tiny_neg M f _ bs (by omega) (by omega)]
      simp only [Except.ok.injEq, Prod.mk.injEq, Value.int.injEq]
      constructor
      · omega
      · trivial
  · -- INT_8
    simp only [wUInt8, wInt8, List.cons_append, List.nil_append,
      Nat.reducePow, List.append_assoc]
    norm_num
    rw [unpack_int8 M f _ bs]
    simp only [Except.ok.injEq, Prod.mk.injEq, Value.int.injEq, toSigned8]
    constructor
    · split <;> omega
    · trivial
  · -- INT_16
    simp only [wUInt8, wInt16, beBytes, List.cons_append, List.nil_append,
      pow_one, pow_zero, Nat.div_one, List.append_assoc]
    norm_num
    rw [unpack_int16 M f _ _ bs]
    simp only [Except.ok.injEq, Prod.mk.injEq, Value.int.injEq, toSigned16]
    constructor
    · split <;> omega
    · trivial
  · -- INT_32
    simp only [wUInt8, wInt32, beBytes, List.cons_append, List.nil_append,
      pow_one, pow_zero, Nat.div_one, List.append_assoc]
    norm_num
    rw [unpack_int32 M f _ _ _ _ bs]
    simp only [Except.ok.injEq, Prod.mk.injEq, Value.int.injEq, toSigned32]
    constructor
    · split <;> omega
    · trivial
  · -- INT_64
    simp only [wUInt8, wInt32, beBytes, List.cons_append, List.nil_append,
      pow_one, pow_zero, Nat.div_one, List.append_assoc]
    norm_num
    rw [unpack_int64 M f _ _ _ _ _ _ _ _ bs]
    simp only [Except.ok.injEq, Prod.mk.injEq, Value.int.injEq]
    refine ⟨?_, trivial⟩
    have hH := i64high_bounds x
    have hL := i64low_bounds x
    have hS := i64_split x hlo hhi
    generalize i64high x = H at *
    generalize i64low x = L at *
    unfold toSigned32
    split <;> split <;> omega

/-! ## Round-trip of a packed string -/

theorem unpack_packString (M : Mappers) (f : Nat) (s : List Nat) (b : Bool)
    (bs : List Nat) (h : s.length < 4294967296) :
    unpack M (f + 1) ((packString s b).bytes ++ bs) = .ok (.str s, bs) := by
  unfold packString
  dsimp only
  split_ifs with h1 h2 h3
  · -- tiny
    simp only [prBytes, wUInt8, List.cons_append, List.nil_append,
      lor128 _ h1, List.append_assoc]
    rw [Nat.mod_eq_of_lt (by omega)]
    rw [unpack_str_tiny M f _ (s ++ bs) h1 (by simp)]
    rw [List.take_left, List.drop_left]
  · -- STRING_8
    simp only [prBytes, wUInt8, List.cons_append, List.nil_append,
      List.append_assoc]
    rw [Nat.mod_eq_of_lt (by omega), Nat.mod_eq_of_lt (by omega)]
    rw [unpack_str8 M f _ (s ++ bs) (by simp)]
    rw [List.take_left, List.drop_left]
  · -- STRING_16
    simp only [prBytes, wUInt8, List.cons_append, List.nil_append,
      List.append_assoc]
    rw [Nat.mod_eq_of_lt (show (0xD1 : Nat) < 256 by omega),
      Nat.mod_eq_of_lt (show s.length / 256 < 256 by omega),
      Nat.mod_eq_of_lt (show s.length % 256 < 256 by omega)]
    rw [unpack_str16 M f _ _ (s ++ bs) (by simp; omega)]
    have hrec : s.length / 256 * 256 + s.length % 256 = s.length := by omega
    rw [hrec, List.take_left, List.drop_left]
  · -- STRING_32
    simp only [prBytes, wUInt8, List.cons_append, List.nil_append,
      List.append_assoc]
    rw [Nat.mod_eq_of_lt (show (0xD2 : Nat) < 256 by omega),
      Nat.mod_eq_of_lt (show s.length / 16777216 % 256 < 256 by omega),
      Nat.mod_eq_of_lt (show s.length / 65536 % 256 < 256 by omega),
      Nat.mod_eq_of_lt (show s.length / 256 % 256 < 256 by omega),
      Nat.mod_eq_of_lt (show s.length % 256 < 256 by omega)]
    rw [unpack_str32 M f _ _ _ _ (s ++ bs) (by simp; omega)]
    have hrec : s.length / 16777216 % 256 * 16777216 +
        s.length / 65536 % 256 * 65536 + s.length / 256 % 256 * 256 +
        s.length % 256 = s.length := by omega
    rw [hrec, List.take_left, List.drop_left]

/-! ## Decoding a packed container header -/

theorem unpack_packListHeader (M : Mappers) (f n : Nat) (b : Bool)
    (bs : List Nat) (h : n < 4294967296) :
    unpack M (f + 1) ((packListHeader n b).bytes ++ bs) = (do
      let (vs, r) ← unpackN (unpack M f) n bs
      .ok (.list vs, r)) := by
  unfold packListHeader
  split_ifs with h1 h2 h3
  · simp only [prBytes, wUInt8, List.cons_append, List.nil_append,
      lor144 _ h1]
    rw [Nat.mod_eq_of_lt (by omega)]
    exact unpack_list_tiny M f n bs h1
  · simp only [prBytes, wUInt8, List.cons_append, List.nil_append,
      List.append_assoc]
    rw [Nat.mod_eq_of_lt (by omega), Nat.mod_eq_of_lt (by omega)]
    exact unpack_list8 M f n bs
  · simp only [prBytes, wUInt8, List.cons_append, List.nil_append,
      List.append_assoc]
    rw [Nat.mod_eq_of_lt (show (0xD5 : Nat) < 256 by omega),
      Nat.mod_eq_of_lt (show n / 256 % 256 < 256 by omega),
      Nat.mod_eq_of_lt (show n % 256 < 256 by omega)]
    rw [unpack_list16 M f _ _ bs]
    have hrec : n / 256 % 256 * 256 + n % 256 = n := by omega
    rw [hrec]
  · simp only [prBytes, wUInt8, List.cons_append, List.nil_append,
      List.append_assoc]
    rw [Nat.mod_eq_of_lt (show (0xD6 : Nat) < 256 by omega),
      Nat.mod_eq_of_lt (show n / 16777216 % 256 < 256 by omega),
      Nat.mod_eq_of_lt (show n / 65536 % 256 < 256 by omega),
      Nat.mod_eq_of_lt (show n / 256 % 256 < 256 by omega),
      Nat.mod_eq_of_lt (show n % 256 < 256 by omega)]
    rw [unpack_list32 M f _ _ _ _ bs]
    have hrec : n / 16777216 % 256 * 16777216 + n / 65536 % 256 * 65536 +
        n / 256 % 256 * 256 + n % 256 = n := by omega
    rw [hrec]

theorem unpack_packMapHeader (M : Mappers) (f n : Nat) (b : Bool)
    (bs : List Nat) (h : n < 4294967296) :
    unpack M (f + 1) ((packMapHeader n b).bytes ++ bs) = (do
      let (es, r) ← unpackMapN (unpack M f) n [] bs
      .ok (.map es, r)) := by
  unfold packMapHeader
  split_ifs with h1 h2 h3
  · simp only [prBytes, wUInt8, List.cons_append, List.nil_append,
      lor160 _ h1]
    rw [Nat.mod_eq_of_lt (by omega)]
    exact unpack_map_tiny M f n bs h1
  · simp only [prBytes, wUInt8, List.cons_append, List.nil_append,
      List.append_assoc]
    rw [Nat.mod_eq_of_lt (by omega), Nat.mod_eq_of_lt (by omega)]
    exact unpack_map8 M f n bs
  · simp only [prBytes, wUInt8, List.cons_append, List.nil_append,
      List.append_assoc]
    rw [Nat.mod_eq_of_lt (show (0xD9 : Nat) < 256 by omega),
      Nat.mod_eq_of_lt (show n / 256 < 256 by omega),
      Nat.mod_eq_of_lt (show n % 256 < 256 by omega)]
    rw [unpack_map16 M f _ _ bs]
    have hrec : n / 256 * 256 + n % 256 = n := by omega
    rw [hrec]
  · simp only [prBytes, wUInt8, List.cons_append, List.nil_append,
      List.append_assoc]
    rw [Nat.mod_eq_of_lt (show (0xDA : Nat) < 256 by omega),
      Nat.mod_eq_of_lt (show n / 16777216 % 256 < 256 by omega),
      Nat.mod_eq_of_lt (show n / 65536 % 256 < 256 by omega),
      Nat.mod_eq_of_lt (show n / 256 % 256 < 256 by omega),
      Nat.mod_eq_of_lt (show n % 256 < 256 by omega)]
    rw [unpack_map32 M f _ _ _ _ bs]
    have hrec : n / 16777216 % 256 * 16777216 + n / 65536 % 256 * 65536 +
        n / 256 % 256 * 256 + n % 256 = n := by omega
    rw [hrec]

theorem unpack_packStructHeader (f n sig : Nat) (b : Bool) (bs : List Nat)
    (hn : n < 256) (hsig : sig < 256) :
    unpack noMappers (f + 1) ((packStructHeader n sig b).bytes ++ bs) = (do
      let (fs, r) ← unpackN (unpack noMappers f) n bs
      .ok (.struct sig fs, r)) := by
  unfold packStructHeader
  split_ifs with h1 h2
  · simp only [prBytes, wUInt8, List.cons_append, List.nil_append,
      lor176 _ h1, List.append_assoc]
    rw [Nat.mod_eq_of_lt (by omega), Nat.mod_eq_of_lt (by omega)]
    rw [unpack_struct_tiny noMappers f n _ h1]
    simp [unpackStruct, readUInt8, noMappers, bind, Except.bind]
  · simp only [prBytes, wUInt8, List.cons_append, List.nil_append,
      List.append_assoc]
    rw [Nat.mod_eq_of_lt (by omega), Nat.mod_eq_of_lt (by omega),
      Nat.mod_eq_of_lt (by omega)]
    rw [unpack_struct8 noMappers f n _]
    simp [unpackStruct, readUInt8, noMappers, bind, Except.bind]

/-! ## Headers of in-grammar sizes raise nothing -/

theorem packString_thrown (s : List Nat) (b : Bool)
    (h : s.length < 4294967296) : (packString s b).thrown = none := by
  unfold packString
  dsimp only
  split_ifs <;> first | simp [prBytes] | omega

theorem packListHeader_thrown (n : Nat) (b : Bool) (h : n < 4294967296) :
    (packListHeader n b).thrown = none := by
  unfold packListHeader
  split_ifs <;> first | simp [prBytes] | omega

theorem packMapHeader_thrown (n : Nat) (b : Bool) (h : n < 4294967296) :
    (packMapHeader n b).thrown = none := by
  unfold packMapHeader
  split_ifs <;> first | simp [prBytes] | omega

theorem packStructHeader_thrown (n sig : Nat) (b : Bool) (h : n < 65536) :
    (packStructHeader n sig b).thrown = none := by
  unfold packStructHeader
  split_ifs <;> first | simp [prBytes] | omega

/-! ## In-grammar values raise nothing on the pack path -/

mutual

theorem packRun_thrown : ∀ v : Value, wf v = true → ∀ b : Bool,
    (packRun b v).thrown = none
  | .null, h, b => by simp [packRun, prBytes]
  | .bool bv, h, b => by cases bv <;> simp [packRun, prBytes]
  | .float p, h, b => by simp [packRun, prBytes]
  | .int x, h, b => by simp [packRun, prBytes]
  | .str s, h, b => by
      simp only [wf, Bool.and_eq_true, decide_eq_true_eq] at h
      exact packString_thrown s b h.1
  | .list xs, h, b => by
      simp only [wf, Bool.and_eq_true, decide_eq_true_eq] at h
      simp only [packRun]
      rw [append_thrown _ _ (packListHeader_thrown _ _ h.1)]
      exact packRunListElems_thrown xs h.2 b
  | .map es, h, b => by
      simp only [wf, Bool.and_eq_true, decide_eq_true_eq] at h
      simp only [packRun]
      rw [append_thrown _ _ (packMapHeader_thrown _ _ (by
        have := List.length_filter_le (fun e => !(e.2.isUndef)) es
        omega))]
      exact packRunMapEntries_thrown es h.2 b
  | .struct sig fs, h, b => by
      simp only [wf, Bool.and_eq_true, decide_eq_true_eq] at h
      simp only [packRun]
      rw [append_thrown _ _ (packStructHeader_thrown _ _ _ (by omega))]
      exact packRunStructFields_thrown fs h.2 b
  | .undef, h, b => by simp [wf] at h

theorem packRunListElems_thrown : ∀ xs : List Value, wfList xs = true →
    ∀ b : Bool, (packRunListElems b xs).thrown = none
  | [], h, b => by simp [packRunListElems, emptyPR]
  | .undef :: es, h, b => by
      simp only [wfList, Bool.and_eq_true] at h
      simp [wf] at h
  | .null :: es, h, b => by
      simp only [wfList, Bool.and_eq_true] at h
      simp only [packRunListElems]
      rw [append_thrown, packRunListElems_thrown es h.2 b]
      rw [append_thrown _ _ (by simp)]
      exact packRun_thrown _ h.1 b
  | .bool bv :: es, h, b => by
      simp only [wfList, Bool.and_eq_true] at h
      simp only [packRunListElems]
      rw [append_thrown, packRunListElems_thrown es h.2 b]
      rw [append_thrown _ _ (by simp)]
      exact packRun_thrown _ h.1 b
  | .float p :: es, h, b => by
      simp only [wfList, Bool.and_eq_true] at h
      simp only [packRunListElems]
      rw [append_thrown, packRunListElems_thrown es h.2 b]
      rw [append_thrown _ _ (by simp)]
      exact packRun_thrown _ h.1 b
  | .int x :: es, h, b => by
      simp only [wfList, Bool.and_eq_true] at h
      simp only [packRunListElems]
      rw [append_thrown, packRunListElems_thrown es h.2 b]
      rw [append_thrown _ _ (by simp)]
      exact packRun_thrown _ h.1 b
  | .str s :: es, h, b => by
      simp only [wfList, Bool.and_eq_true] at h
      simp only [packRunListElems]
      rw [append_thrown, packRunListElems_thrown es h.2 b]
      rw [append_thrown _ _ (by simp)]
      exact packRun_thrown _ h.1 b
  | .list xs :: es, h, b => by
      simp only [wfList, Bool.and_eq_true] at h
      simp only [packRunListElems]
      rw [append_thrown, packRunListElems_thrown es h.2 b]
      rw [append_thrown _ _ (by simp)]
      exact packRun_thrown _ h.1 b
  | .map m :: es, h, b => by
      simp only [wfList, Bool.and_eq_true] at h
      simp only [packRunListElems]
      rw [append_thrown, packRunListElems_thrown es h.2 b]
      rw [append_thrown _ _ (by simp)]
      exact packRun_thrown _ h.1 b
  | .struct sig fs :: es, h, b => by
      simp only [wfList, Bool.and_eq_true] at h
      simp only [packRunListElems]
      rw [append_thrown, packRunListElems_thrown es h.2 b]
      rw [append_thrown _ _ (by simp)]
      exact packRun_thrown _ h.1 b

theorem packRunMapEntries_thrown : ∀ es : List (Value × Value),
    wfEntries es = true → ∀ b : Bool,
    (packRunMapEntries b es).thrown = none
  | [], h, b => by simp [packRunMapEntries, emptyPR]
  | (k, v) :: es, h, b => by
      simp only [wfEntries, Bool.and_eq_true] at h
      obtain ⟨⟨hk, hv⟩, hes⟩ := h
      have hvu : v.isUndef = false := by
        cases v <;> simp [Value.isUndef] <;> simp [wf] at hv
      simp only [packRunMapEntries, hvu, Bool.false_eq_true, if_false]
      rw [append_thrown, packRunMapEntries_thrown es hes b]
      rw [append_thrown, append_thrown _ _ (by simp)]
      · exact packRun_thrown v hv b
      · cases k
        case str s =>
          simp only [Bool.and_eq_true, decide_eq_true_eq] at hk
          exact packString_thrown _ false (by simpa [keyToString] using hk.1)
        all_goals simp at hk

theorem packRunStructFields_thrown : ∀ fs : List Value, wfList fs = true →
    ∀ b : Bool, (packRunStructFields b fs).thrown = none
  | [], h, b => by simp [packRunStructFields, emptyPR]
  | f :: fs, h, b => by
      simp only [wfList, Bool.and_eq_true] at h
      simp only [packRunStructFields]
      rw [append_thrown, packRunStructFields_thrown fs h.2 b]
      exact packRun_thrown f h.1 b

end

/-! ## Bytes written by the element, entry and field loops -/

theorem wf_not_undef {v : Value} (h : wf v = true) : v.isUndef = false := by
  cases v <;> simp [Value.isUndef] <;> simp [wf] at h

theorem packRunListElems_bytes : ∀ xs : List Value, wfList xs = true →
    ∀ b : Bool, (packRunListElems b xs).bytes = packedList b xs := by
  intro xs
  induction xs with
  | nil => intro h b; simp [packRunListElems, packedList, emptyPR]
  | cons e es ih =>
      intro h b
      simp only [wfList, Bool.and_eq_true] at h
      have he := wf_not_undef h.1
      have hbytes : ∀ r : PackResult,
          (((⟨[], buildErrors b e, none⟩ : PackResult).append
              (packRun b e)).append r).bytes =
            (packRun b e).bytes ++ r.bytes := by
        intro r
        rw [append_bytes, append_bytes _ _ (by simp)]
        · simp
        · rw [append_thrown _ _ (by simp)]
          exact packRun_thrown e h.1 b
      cases e <;> simp [Value.isUndef] at he <;>
        simp only [packRunListElems, packedList, hbytes, ih h.2 b]

theorem packRunStructFields_bytes : ∀ fs : List Value, wfList fs = true →
    ∀ b : Bool, (packRunStructFields b fs).bytes = packedList b fs := by
  intro fs
  induction fs with
  | nil => intro h b; simp [packRunStructFields, packedList, emptyPR]
  | cons f fs ih =>
      intro h b
      simp only [wfList, Bool.and_eq_true] at h
      simp only [packRunStructFields, packedList]
      rw [append_bytes _ _ (packRun_thrown f h.1 b), ih h.2 b]

theorem packRunMapEntries_bytes : ∀ es : List (Value × Value),
    wfEntries es = true → ∀ b : Bool,
    (packRunMapEntries b es).bytes = packedEntries b es := by
  intro es
  induction es with
  | nil => intro h b; simp [packRunMapEntries, packedEntries, emptyPR]
  | cons e es ih =>
      intro h b
      obtain ⟨k, v⟩ := e
      simp only [wfEntries, Bool.and_eq_true] at h
      obtain ⟨⟨hk, hv⟩, hes⟩ := h
      have hvu := wf_not_undef hv
      have hkstr : (keyToString k).length < 4294967296 := by
        cases k
        case str s =>
          simp only [Bool.and_eq_true, decide_eq_true_eq] at hk
          simpa [keyToString] using hk.1
        all_goals simp at hk
      simp only [packRunMapEntries, hvu, Bool.false_eq_true, if_false,
        packedEntries]
      rw [append_bytes, append_bytes _ _ (packString_thrown _ _ hkstr),
        append_bytes _ _ (by simp), ih hes b]
      · simp
      · rw [append_thrown _ _ (packString_thrown _ _ hkstr),
          append_thrown _ _ (by simp)]
        exact packRun_thrown v hv b

/-! ## Small decoding facts -/

theorem unpackN_length
    (u : List Nat → Except String (Value × List Nat)) :
    ∀ (n : Nat) (bs : List Nat) (vs : List Value) (r : List Nat),
    unpackN u n bs = .ok (vs, r) → vs.length = n := by
  intro n
  induction n with
  | zero =>
      intro bs vs r h
      simp [unpackN] at h
      simp [h.1]
  | succ m ih =>
      intro bs vs r h
      simp only [unpackN, bind, Except.bind] at h
      cases hu : u bs with
      | error e => rw [hu] at h; simp at h
      | ok p =>
          rw [hu] at h
          dsimp only at h
          cases hrec : unpackN u m p.2 with
          | error e => rw [hrec] at h; simp at h
          | ok q =>
              rw [hrec] at h
              dsimp only at h
              simp only [Except.ok.injEq, Prod.mk.injEq] at h
              have hq := ih p.2 q.1 q.2 (by rw [hrec])
              simp [← h.1, hq]

theorem objInsert_notMem (acc : List (Value × Value)) (k v : Value)
    (h : ¬ k ∈ acc.map Prod.fst) : objInsert acc k v = acc ++ [(k, v)] := by
  have hno : ¬ (acc.any (fun e => e.1 = k) = true) := by
    simp only [List.any_eq_true, decide_eq_true_eq]
    rintro ⟨e, he, hek⟩
    exact h (List.mem_map.mpr ⟨e, he, hek⟩)
  unfold objInsert
  rw [if_neg hno]

theorem wfEntries_filter : ∀ es : List (Value × Value),
    wfEntries es = true → es.filter (fun e => !(e.2.isUndef)) = es := by
  intro es
  induction es with
  | nil => intro h; simp
  | cons e es ih =>
      intro h
      obtain ⟨k, v⟩ := e
      simp only [wfEntries, Bool.and_eq_true] at h
      have := wf_not_undef h.1.2
      simp [List.filter, this, ih h.2]

/-! ## Round-trip of the element, field and entry loops -/

theorem unpackN_packedList (f : Nat) (b : Bool)
    (IH : ∀ v : Value, wf v = true → nodes v ≤ f → ∀ rest : List Nat,
      unpack noMappers f ((packFull b v).bytes ++ rest) = .ok (v, rest)) :
    ∀ xs : List Value, wfList xs = true → nodesList xs ≤ f →
    ∀ rest : List Nat,
    unpackN (unpack noMappers f) xs.length (packedList b xs ++ rest) =
      .ok (xs, rest) := by
  intro xs
  induction xs with
  | nil => intro h hn rest; simp [packedList, unpackN]
  | cons x xs ih =>
      intro h hn rest
      simp only [wfList, Bool.and_eq_true] at h
      simp only [nodesList] at hn
      have hx := nodes_pos x
      simp only [packedList, List.append_assoc, List.length_cons]
      simp only [unpackN, bind, Except.bind]
      rw [← packFull_bytes b x]
      rw [IH x h.1 (by omega) (packedList b xs ++ rest)]
      dsimp only
      rw [ih h.2 (by omega) rest]

theorem unpackMapN_packedEntries (f : Nat) (b : Bool)
    (IH : ∀ v : Value, wf v = true → nodes v ≤ f → ∀ rest : List Nat,
      unpack noMappers f ((packFull b v).bytes ++ rest) = .ok (v, rest)) :
    ∀ es acc : List (Value × Value),
    wfEntries es = true → nodesEntries es ≤ f →
    (es.map Prod.fst).Nodup →
    (∀ k, k ∈ es.map Prod.fst → ¬ k ∈ acc.map Prod.fst) →
    ∀ rest : List Nat,
    unpackMapN (unpack noMappers f) es.length acc
      (packedEntries b es ++ rest) = .ok (acc ++ es, rest) := by
  intro es
  induction es with
  | nil => intro acc h hn hd hdisj rest; simp [packedEntries, unpackMapN]
  | cons e es ih =>
      intro acc h hn hd hdisj rest
      obtain ⟨k, v⟩ := e
      simp only [wfEntries, Bool.and_eq_true] at h
      obtain ⟨⟨hk, hv⟩, hes⟩ := h
      simp only [nodesEntries] at hn
      have hvpos := nodes_pos v
      cases k
      case str s =>
        simp only [Bool.and_eq_true, decide_eq_true_eq] at hk
        obtain ⟨g, rfl⟩ : ∃ g, f = g + 1 := ⟨f - 1, by omega⟩
        simp only [packedEntries, keyToString, List.append_assoc,
          List.length_cons]
        simp only [unpackMapN, bind, Except.bind]
        rw [unpack_packString noMappers g s false _ hk.1]
        dsimp only
        rw [← packFull_bytes b v, IH v hv (by omega) _]
        dsimp only
        rw [objInsert_notMem acc (.str s) v
          (hdisj _ (by simp))]
        have hdisj' : ∀ k', k' ∈ es.map Prod.fst →
            ¬ k' ∈ (acc ++ [(Value.str s, v)]).map Prod.fst := by
          intro k' hk' hmem
          simp only [List.map_append, List.map_cons, List.map_nil,
            List.mem_append, List.mem_singleton] at hmem
          rcases hmem with hmem | hmem
          · exact hdisj k' (by
              simp only [List.map_cons]
              exact List.mem_cons_of_mem _ hk') hmem
          · rw [hmem] at hk'
            exact (List.nodup_cons.mp (by simpa using hd)).1 hk'
        rw [ih (acc ++ [(Value.str s, v)]) hes (by omega)
          (List.nodup_cons.mp (by simpa using hd)).2 hdisj' rest]
        simp
      all_goals simp at hk

/-! ## The round-trip theorem -/

theorem unpack_packFull :
    ∀ (fuel : Nat) (v : Value), wf v = true → nodes v ≤ fuel →
    ∀ (b : Bool) (rest : List Nat),
    unpack noMappers fuel ((packFull b v).bytes ++ rest) = .ok (v, rest) := by
  intro fuel
  induction fuel with
  | zero =>
      intro v hwf hn
      have := nodes_pos v
      omega
  | succ f IH =>
      intro v hwf hn b rest
      cases v with
      | null =>
          rw [packFull_bytes]
          simp only [packRun, prBytes, wUInt8]
          norm_num
          exact unpack_null noMappers f rest
      | bool bv =>
          rw [packFull_bytes]
          cases bv
          · simp only [packRun, prBytes, wUInt8]
            norm_num
            exact unpack_false noMappers f rest
          · simp only [packRun, prBytes, wUInt8]
            norm_num
            exact unpack_true noMappers f rest
      | float p =>
          simp only [wf, Bool.and_eq_true, decide_eq_true_eq] at hwf
          rw [packFull_bytes]
          simp only [packRun, prBytes, wUInt8]
          norm_num
          rw [unpack_float64 noMappers f (p ++ rest)
            (by simp [List.length_append, hwf.1])]
          have ht : (p ++ rest).take 8 = p := by
            rw [← hwf.1]
            exact List.take_left p rest
          have hd : (p ++ rest).drop 8 = rest := by
            rw [← hwf.1]
            exact List.drop_left p rest
          rw [ht, hd]
      | int x =>
          simp only [wf, Bool.and_eq_true, decide_eq_true_eq] at hwf
          rw [packFull_bytes]
          simp only [packRun, prBytes]
          exact unpack_packInteger noMappers f x rest hwf.1 hwf.2
      | str s =>
          simp only [wf, Bool.and_eq_true, decide_eq_true_eq] at hwf
          rw [packFull_bytes]
          simp only [packRun]
          exact unpack_packString noMappers f s b rest hwf.1
      | list xs =>
          simp only [wf, Bool.and_eq_true, decide_eq_true_eq] at hwf
          simp only [nodes] at hn
          rw [packFull_bytes]
          simp only [packRun]
          rw [append_bytes _ _ (packListHeader_thrown _ _ hwf.1),
            List.append_assoc]
          rw [unpack_packListHeader noMappers f xs.length b _ hwf.1]
          rw [packRunListElems_bytes xs hwf.2 b]
          simp only [bind, Except.bind]
          rw [unpackN_packedList f b (fun w hw hnw r => IH w hw hnw b r)
            xs hwf.2 (by omega) rest]
      | map es =>
          simp only [wf, Bool.and_eq_true, decide_eq_true_eq] at hwf
          simp only [nodes] at hn
          rw [packFull_bytes]
          simp only [packRun]
          rw [wfEntries_filter es hwf.2]
          rw [append_bytes _ _ (packMapHeader_thrown _ _ hwf.1.1),
            List.append_assoc]
          rw [unpack_packMapHeader noMappers f es.length b _ hwf.1.1]
          rw [packRunMapEntries_bytes es hwf.2 b]
          simp only [bind, Except.bind]
          rw [unpackMapN_packedEntries f b
            (fun w hw hnw r => IH w hw hnw b r) es [] hwf.2 (by omega)
            hwf.1.2 (by simp) rest]
          simp
      | struct sig fs =>
          simp only [wf, Bool.and_eq_true, decide_eq_true_eq] at hwf
          simp only [nodes] at hn
          rw [packFull_bytes]
          simp only [packRun]
          rw [append_bytes _ _ (packStructHeader_thrown _ _ _ (by omega)),
            List.append_assoc]
          rw [unpack_packStructHeader f fs.length sig false _ hwf.1.2
            hwf.1.1]
          rw [packRunStructFields_bytes fs hwf.2 b]
          simp only [bind, Except.bind]
          rw [unpackN_packedList f b (fun w hw hnw r => IH w hw hnw b r)
            fs hwf.2 (by omega) rest]
      | undef => simp [wf] at hwf

/-! ## Further helper lemmas for the claims -/

theorem append_of_thrown (r1 r2 : PackResult)
    (h : r1.thrown.isSome = true) : r1.append r2 = r1 := by
  simp [PackResult.append, h]

theorem buildErrors_map (b : Bool) (es : List (Value × Value)) :
    buildErrors b (.map es) = [] := rfl

theorem buildErrors_list (b : Bool) (xs : List Value) :
    buildErrors b (.list xs) = [] := rfl

theorem filterIdem {α : Type} (p : α → Bool) :
    ∀ l : List α, (l.filter p).filter p = l.filter p := by
  intro l
  induction l with
  | nil => simp
  | cons a l ih =>
      cases h : p a <;> simp [List.filter_cons, h, ih]

theorem packRunMapEntries_filter (b : Bool) :
    ∀ es : List (Value × Value),
    packRunMapEntries b (es.filter (fun e => !(e.2.isUndef))) =
      packRunMapEntries b es := by
  intro es
  induction es with
  | nil => rfl
  | cons e es ih =>
      obtain ⟨k, v⟩ := e
      cases hv : v.isUndef <;>
        simp [List.filter_cons, hv, packRunMapEntries, ih]

theorem packString_oversize (s : List Nat) (b : Bool)
    (h : 4294967296 ≤ s.length) :
    packString s b = reportUnguarded b
      ("UTF-8 strings of size " ++ toString s.length ++
        " are not supported") := by
  unfold packString
  dsimp only
  rw [if_neg (by omega), if_neg (by omega), if_neg (by omega),
    if_neg (by omega)]

theorem packListHeader_oversize (n : Nat) (b : Bool) (h : 4294967296 ≤ n) :
    packListHeader n b = reportUnguarded b
      ("Lists of size " ++ toString n ++ " are not supported") := by
  unfold packListHeader
  rw [if_neg (by omega), if_neg (by omega), if_neg (by omega),
    if_neg (by omega)]

theorem packStructHeader_oversize (n sig : Nat) (b : Bool)
    (h : 65536 ≤ n) :
    packStructHeader n sig b = reportUnguarded b
      ("Structures of size " ++ toString n ++ " are not supported") := by
  unfold packStructHeader
  rw [if_neg (by omega), if_neg (by omega), if_neg (by omega)]

theorem buildErrorsFields_nulls (b : Bool) :
    ∀ n : Nat, buildErrorsFields b (List.replicate n .null) = []
  | 0 => rfl
  | n + 1 => by
      simp [List.replicate_succ, buildErrorsFields, buildErrors,
        buildErrorsFields_nulls b n]

theorem packFull_thrown (b : Bool) (v : Value) :
    (packFull b v).thrown = (packRun b v).thrown := by
  simp [packFull, PackResult.append]

theorem reportUnguarded_false (msg : String) :
    reportUnguarded false msg =
      ⟨[], [], some "TypeError: onError is not a function"⟩ := rfl

theorem reportUnguarded_true (msg : String) :
    reportUnguarded true msg = ⟨[], [msg], none⟩ := rfl

theorem append_some (bs : List Nat) (es : List String) (msg : String)
    (r2 : PackResult) :
    (⟨bs, es, some msg⟩ : PackResult).append r2 = ⟨bs, es, some msg⟩ := by
  simp [PackResult.append]

theorem append_none (bs : List Nat) (es : List String) (r2 : PackResult) :
    (⟨bs, es, none⟩ : PackResult).append r2 =
      ⟨bs ++ r2.bytes, es ++ r2.errors, r2.thrown⟩ := by
  simp [PackResult.append]

/-! ## The claims -/

/-- C3 (code bug): the spec table says a `0xDD` struct header is the marker,
a 2-byte big-endian count, then the signature byte — as in the tiny and
`0xDC` tiers, and as the same file's `Unpacker.unpackStruct` expects.  The
source's `STRUCT_16` branch emits the marker and the two count bytes but
omits the signature byte: packing a 256-field structure with signature
`0x4E` emits exactly `DD 01 00`, and `0x4E` appears nowhere in the header. -/
theorem c3_struct16_header :
    packStructHeader 256 0x4E false =
      ⟨[0xDD, 0x01, 0x00], [], none⟩ ∧
    ¬ (0x4E : Nat) ∈ [0xDD, 0x01, 0x00] := by
  decide

/-- C4 (corrected): decoding any single byte outside the marker grammar
fails with the error built from the marker rendered by `toString(16)`:
lowercase hexadecimal digits with no `0x` prefix — the message reads
`Unknown packed value with marker c4`, not `... 0xc4`. -/
theorem c4_unknown_marker :
    badMarkers.all (fun m =>
      unpack noMappers 1 [m] =
        .error ("Unknown packed value with marker " ++ jsHex m)) = true := by
  decide

/-- C4, counterexample: at the unknown marker `0xC4` the message carries no
`0x` prefix, so it is not of the form the claim states. -/
theorem c4_unknown_marker_counterexample :
    unpack noMappers 1 [0xC4] =
      .error "Unknown packed value with marker c4" ∧
    "Unknown packed value with marker c4" ≠
      "Unknown packed value with marker 0xc4" := by
  decide

/-- C5 (confirmed): packing a map produces exactly the same result —
bytes, reported errors and raised exceptions alike — as packing the map
with its undefined-valued entries removed: the emitted count counts only
the surviving entries and the skipped entries contribute nothing. -/
theorem c5_map_undef_filtering (b : Bool) (es : List (Value × Value)) :
    packFull b (.map es) =
      packFull b (.map (es.filter (fun e => !(e.2.isUndef)))) := by
  simp only [packFull, buildErrors_map, packRun]
  rw [filterIdem, packRunMapEntries_filter]

/-- C9 (confirmed): every multi-byte length prefix the Packer emits — the
16- and 32-bit tiers of strings, lists and maps, and the 16-bit tier of
structs — is the big-endian byte decomposition of the length, most
significant byte first. -/
theorem c9_big_endian_prefixes (b : Bool) (s : List Nat) (n sig : Nat) :
    (256 ≤ s.length → s.length < 65536 →
      (packString s b).bytes = 0xD1 :: (beBytes 2 s.length ++ s)) ∧
    (65536 ≤ s.length → s.length < 4294967296 →
      (packString s b).bytes = 0xD2 :: (beBytes 4 s.length ++ s)) ∧
    (256 ≤ n → n < 65536 →
      (packListHeader n b).bytes = 0xD5 :: beBytes 2 n ∧
      (packMapHeader n b).bytes = 0xD9 :: beBytes 2 n ∧
      (packStructHeader n sig b).bytes = 0xDD :: beBytes 2 n) ∧
    (65536 ≤ n → n < 4294967296 →
      (packListHeader n b).bytes = 0xD6 :: beBytes 4 n ∧
      (packMapHeader n b).bytes = 0xDA :: beBytes 4 n) := by
  refine ⟨?_, ?_, ?_, ?_⟩
  · intro hl hu
    unfold packString
    dsimp only
    rw [if_neg (by omega), if_neg (by omega), if_pos (by omega)]
    simp [prBytes, wUInt8, beBytes] <;> omega
  · intro hl hu
    unfold packString
    dsimp only
    rw [if_neg (by omega), if_neg (by omega), if_neg (by omega),
      if_pos (by omega)]
    simp [prBytes, wUInt8, beBytes] <;> omega
  · intro hl hu
    refine ⟨?_, ?_, ?_⟩
    · unfold packListHeader
      rw [if_neg (by omega), if_neg (by omega), if_pos (by omega)]
      simp [prBytes, wUInt8, beBytes] <;> omega
    · unfold packMapHeader
      rw [if_neg (by omega), if_neg (by omega), if_pos (by omega)]
      simp [prBytes, wUInt8, beBytes] <;> omega
    · unfold packStructHeader
      rw [if_neg (by omega), if_neg (by omega), if_pos (by omega)]
      simp [prBytes, wUInt8, beBytes] <;> omega
  · intro hl hu
    constructor
    · unfold packListHeader
      rw [if_neg (by omega), if_neg (by omega), if_neg (by omega),
        if_pos (by omega)]
      simp [prBytes, wUInt8, beBytes] <;> omega
    · unfold packMapHeader
      rw [if_neg (by omega), if_neg (by omega), if_neg (by omega),
        if_pos (by omega)]
      simp [prBytes, wUInt8, beBytes] <;> omega

/-- C9, witness: the 16-bit length `0x0123` goes out as `01` then `23`,
exercised on a list header of declared size `0x0123`. -/
theorem c9_big_endian_witness :
    beBytes 2 0x0123 = [0x01, 0x23] ∧
    (packListHeader 0x0123 true).bytes = 0xD5 :: beBytes 2 0x0123 :=
  ⟨by decide,
   ((c9_big_endian_prefixes true [] 0x0123 0).2.2.1 (by decide)
     (by decide)).1⟩

/-- C2 (confirmed): for every value in the 64-bit signed range,
`packInteger` emits exactly the bytes of the §4.2 tier table: the narrowest
tier admitting the value wins, the choice and the bytes depend only on the
mathematical value — in particular the behaviour at every tier boundary is
fixed by the table. -/
theorem c2_int_tier (x : Int) (hlo : -9223372036854775808 ≤ x)
    (hhi : x < 9223372036854775808) : packInteger x = intTierSpec x := by
  have e256 := i64low_emod256 x
  have e65536 := i64low_emod65536 x
  have e32 := i64low_emod32 x
  have hH := i64high_bounds x
  have hL := i64low_bounds x
  have hS := i64_split x hlo hhi
  unfold packInteger intTierSpec
  split_ifs
  · simp [wInt8, twosBE, beBytes] <;> omega
  · simp [wUInt8, wInt8, twosBE, beBytes] <;> omega
  · simp [wUInt8, wInt16, twosBE, beBytes] <;> omega
  · simp [wUInt8, wInt32, twosBE, beBytes] <;> omega
  · simp only [wUInt8, wInt32, twosBE, beBytes, List.cons_append,
      List.nil_append, List.append_nil, List.cons.injEq]
    norm_num
    generalize i64high x = H at *
    generalize i64low x = L at *
    omega

/-- C2, witness: the boundary value `-32768` is admitted by the 16-bit tier
and excluded from the narrower ones; the theorem applies there. -/
theorem c2_int_tier_witness :
    packInteger (-32768) = intTierSpec (-32768) :=
  c2_int_tier (-32768) (by decide) (by decide)

/-- C6 (confirmed): when a structure is decoded, the signature byte is read
first; with a mapper registered for it, `unpackStruct` returns exactly the
value the mapper returns on the remaining source; with none registered, any
successful decode yields a `Structure` carrying that signature whose fields
are exactly the declared number of recursively unpacked values. -/
theorem c6_mapper_dispatch :
    (∀ (M : Mappers) (f size sig : Nat)
      (m : List Nat → Except String (Value × List Nat)) (bs : List Nat),
      M sig = some m →
      unpackStruct M (unpack M f) size (sig :: bs) = m bs) ∧
    (∀ (M : Mappers) (f size sig : Nat) (bs : List Nat) (v : Value)
      (r : List Nat),
      M sig = none →
      unpackStruct M (unpack M f) size (sig :: bs) = .ok (v, r) →
      ∃ fs : List Value, v = .struct sig fs ∧ fs.length = size) := by
  constructor
  · intro M f size sig m bs hm
    simp [unpackStruct, readUInt8, hm, bind, Except.bind]
  · intro M f size sig bs v r hm h
    simp only [unpackStruct, readUInt8, hm, bind, Except.bind] at h
    cases hu : unpackN (unpack M f) size bs with
    | error e => rw [hu] at h; simp at h
    | ok p =>
        rw [hu] at h
        dsimp only at h
        simp only [Except.ok.injEq, Prod.mk.injEq] at h
        exact ⟨p.1, h.1.symm,
          unpackN_length (unpack M f) size bs p.1 p.2 (by rw [hu])⟩

/-- C6, witness: a mapper registered for signature 78 decides the result
verbatim; with no mapper, decoding one null field yields the default
`Structure` with that signature and field count. -/
theorem c6_mapper_dispatch_witness :
    unpackStruct
        (fun sg => if sg = 78 then
          some (fun bs => Except.ok (Value.int 42, bs)) else none)
        (unpack (fun sg => if sg = 78 then
          some (fun bs => Except.ok (Value.int 42, bs)) else none) 1)
        2 (78 :: [0xC0]) = .ok (.int 42, [0xC0]) ∧
    (∃ fs : List Value, Value.struct 77 [Value.null] = .struct 77 fs ∧
      fs.length = 1) :=
  ⟨by
    rw [c6_mapper_dispatch.1 _ 1 2 78
      (fun bs => Except.ok (Value.int 42, bs)) [0xC0] (by simp)],
   c6_mapper_dispatch.2 noMappers 1 1 77 [0xC0] (.struct 77 [.null]) []
     rfl (by decide)⟩

/-- C8 (confirmed): packing a list first emits a header declaring the full
length of the list, and packs the elements with every undefined element
replaced by Null — the structural length is preserved, nothing is filtered
out. -/
theorem c8_list_packing (b : Bool) (xs : List Value)
    (h : xs.length < 4294967296) :
    (packFull b (.list xs)).bytes =
      (packListHeader xs.length b).bytes ++
        (packRunListElems b xs).bytes ∧
    packRunListElems b xs = packRunListElems b (xs.map substUndef) := by
  constructor
  · rw [packFull_bytes]
    simp only [packRun]
    exact append_bytes _ _ (packListHeader_thrown _ _ h)
  · clear h
    induction xs with
    | nil => rfl
    | cons e es ih =>
        cases e
        case undef =>
          simp only [List.map_cons, substUndef, packRunListElems]
          rw [ih]
          simp [packRun]
        all_goals
          simp only [List.map_cons, substUndef, packRunListElems]
          rw [ih]

/-- C8, witness: a two-element list with an undefined first element packs as
a header of declared size 2 followed by the Null marker and the packed
second element. -/
theorem c8_list_packing_witness :
    (packFull true (.list [.undef, .int 1])).bytes =
      (packListHeader 2 true).bytes ++
        (packRunListElems true [.undef, .int 1]).bytes ∧
    (packFull true (.list [.undef, .int 1])).bytes = [0x92, 0xC0, 0x01] :=
  ⟨by
    have := (c8_list_packing true [.undef, .int 1] (by decide)).1
    simpa using this,
   by decide⟩

/-! ## C10 helpers -/

theorem objInsert_objInsert (acc : List (Value × Value)) (k v1 v2 : Value) :
    objInsert (objInsert acc k v1) k v2 = objInsert acc k v2 := by
  by_cases h : acc.any (fun e => e.1 = k) = true
  · have h1 : objInsert acc k v1 =
        acc.map (fun e => if e.1 = k then (k, v1) else e) := by
      unfold objInsert
      rw [if_pos h]
    have h2 : objInsert acc k v2 =
        acc.map (fun e => if e.1 = k then (k, v2) else e) := by
      unfold objInsert
      rw [if_pos h]
    have hany : (acc.map (fun e => if e.1 = k then (k, v1) else e)).any
        (fun e => e.1 = k) = true := by
      rcases List.any_eq_true.mp h with ⟨e, he, hek⟩
      simp only [decide_eq_true_eq] at hek
      exact List.any_eq_true.mpr
        ⟨(k, v1), List.mem_map.mpr ⟨e, he, by simp [hek]⟩, by simp⟩
    rw [h1, h2]
    unfold objInsert
    rw [if_pos hany, List.map_map]
    apply List.map_congr_left
    intro e he
    by_cases hek : e.1 = k <;> simp [Function.comp, hek]
  · have h1 : objInsert acc k v1 = acc ++ [(k, v1)] := by
      unfold objInsert
      rw [if_neg h]
    have h2 : objInsert acc k v2 = acc ++ [(k, v2)] := by
      unfold objInsert
      rw [if_neg h]
    have hany : (acc ++ [(k, v1)]).any (fun e => e.1 = k) = true :=
      List.any_eq_true.mpr ⟨(k, v1), by simp, by simp⟩
    have hne : ∀ e ∈ acc, ¬ (e.1 = k) := fun e he hek =>
      h (List.any_eq_true.mpr ⟨e, he, by simp [hek]⟩)
    rw [h1, h2]
    unfold objInsert
    rw [if_pos hany, List.map_append]
    congr 1
    · conv_rhs => rw [← List.map_id acc]
      apply List.map_congr_left
      intro e he
      simp [hne e he]
    · simp

theorem objInsert_length (acc : List (Value × Value)) (k v : Value) :
    (objInsert acc k v).length ≤ acc.length + 1 := by
  unfold objInsert
  split <;> simp

theorem unpackMapN_length_le
    (u : List Nat → Except String (Value × List Nat)) :
    ∀ (n : Nat) (acc : List (Value × Value)) (bs : List Nat)
      (es : List (Value × Value)) (r : List Nat),
    unpackMapN u n acc bs = .ok (es, r) → es.length ≤ acc.length + n := by
  intro n
  induction n with
  | zero =>
      intro acc bs es r h
      simp [unpackMapN] at h
      simp [h.1]
  | succ m ih =>
      intro acc bs es r h
      simp only [unpackMapN, bind, Except.bind] at h
      cases hk : u bs with
      | error e => rw [hk] at h; simp at h
      | ok p =>
          rw [hk] at h
          dsimp only at h
          cases hv : u p.2 with
          | error e => rw [hv] at h; simp at h
          | ok q =>
              rw [hv] at h
              dsimp only at h
              have := ih (objInsert acc p.1 q.1) q.2 es r h
              have hlen := objInsert_length acc p.1 q.1
              omega

/-- C10 (confirmed, implicit): decoding a map whose encoded entries repeat
a key does not fail: property assignment makes the last occurrence in
encoded order win, and the built object can hold fewer entries than the
declared count.  Part one decodes a two-entry tiny map with equal
one-byte-string keys and tiny-int values to the one-entry object binding
the key to the second value; part two is the general last-wins law of the
property assignment `value[key] = v`; part three bounds the built object by
the declared entry count. -/
theorem c10_dup_keys :
    (∀ c n1 n2 : Nat, c < 256 → n1 < 128 → n2 < 128 →
      unpack noMappers 5 [0xA2, 0x81, c, n1, 0x81, c, n2] =
        .ok (.map [(.str [c], .int n2)], [])) ∧
    (∀ (acc : List (Value × Value)) (k v1 v2 : Value),
      objInsert (objInsert acc k v1) k v2 = objInsert acc k v2) ∧
    (∀ (u : List Nat → Except String (Value × List Nat)) (n : Nat)
      (bs : List Nat) (es : List (Value × Value)) (r : List Nat),
      unpackMapN u n [] bs = .ok (es, r) → es.length ≤ n) := by
  refine ⟨?_, objInsert_objInsert, ?_⟩
  · intro c n1 n2 hc h1 h2
    have hmap : unpackMapN (unpack noMappers 4) 2 []
        ((128 + 1) :: c :: n1 :: (128 + 1) :: c :: n2 :: []) =
        .ok ([(.str [c], .int n2)], []) := by
      simp only [unpackMapN, bind, Except.bind]
      rw [show (4 : Nat) = 3 + 1 from rfl]
      rw [unpack_str_tiny noMappers 3 1 (c :: n1 :: (128 + 1) :: c :: n2
        :: []) (by omega) (by simp)]
      dsimp only
      simp only [List.take_succ_cons, List.take_zero, List.drop_succ_cons,
        List.drop_zero]
      rw [unpack_tiny_pos noMappers 3 n1 _ h1]
      dsimp only
      rw [show objInsert [] (Value.str [c]) (Value.int n1) =
        [(Value.str [c], Value.int n1)] from by simp [objInsert]]
      rw [unpack_str_tiny noMappers 3 1 (c :: n2 :: []) (by omega)
        (by simp)]
      dsimp only
      simp only [List.take_succ_cons, List.take_zero, List.drop_succ_cons,
        List.drop_zero]
      rw [unpack_tiny_pos noMappers 3 n2 _ h2]
      dsimp only
      rw [show objInsert [(Value.str [c], Value.int n1)] (Value.str [c])
        (Value.int n2) = [(Value.str [c], Value.int n2)] from by
          simp [objInsert]]
    rw [show (5 : Nat) = 4 + 1 from rfl,
      show (162 : Nat) = 160 + 2 from by norm_num,
      show (129 : Nat) = 128 + 1 from by norm_num,
      unpack_map_tiny noMappers 4 2 _ (by omega)]
    simp only [bind, Except.bind]
    rw [hmap]
  · intro u n bs es r h
    simpa using unpackMapN_length_le u n [] bs es r h

/-- C10, witness: the map `A2 81 61 01 81 61 02` — two entries with the
same key `a` — decodes without failure to the one-entry object binding `a`
to 2, whose size 1 is below the declared count 2. -/
theorem c10_dup_keys_witness :
    (unpack noMappers 5 [0xA2, 0x81, 97, 1, 0x81, 97, 2] =
      .ok (.map [(.str [97], .int 2)], [])) ∧
    ([(Value.str [97], Value.int 2)] : List (Value × Value)).length ≤ 2 :=
  ⟨(c10_dup_keys.1 97 1 2 (by decide) (by decide) (by decide)),
   c10_dup_keys.2.2 (unpack noMappers 4) 2 [0x81, 97, 1, 0x81, 97, 2]
     [(Value.str [97], Value.int 2)] [] (by decide)⟩

/-- C7, counterexample: `packable` reaches `packStruct` without forwarding
`onError`, so packing a 65536-field structure raises a host error even
though the caller supplied an `onError` callback, and nothing is delivered
through the callback — the Packer does throw. -/
theorem c7_pack_throws_counterexample :
    (packFull true (.struct 0 (List.replicate 65536 .null))).thrown =
      some "TypeError: onError is not a function" ∧
    (packFull true (.struct 0 (List.replicate 65536 .null))).errors =
      [] := by
  have hheader : packStructHeader
      (List.replicate 65536 Value.null).length 0 false =
      ⟨[], [], some "TypeError: onError is not a function"⟩ := by
    rw [List.length_replicate, packStructHeader_oversize _ _ _ (by omega),
      reportUnguarded_false]
  have hbe : buildErrors true (.struct 0 (List.replicate 65536 .null)) =
      [] := by
    rw [show buildErrors true (.struct 0 (List.replicate 65536 .null)) =
      buildErrorsFields true (List.replicate 65536 .null) from rfl,
      buildErrorsFields_nulls]
  have hrun : packRun true (.struct 0 (List.replicate 65536 .null)) =
      ⟨[], [], some "TypeError: onError is not a function"⟩ := by
    simp only [packRun]
    rw [hheader, append_some]
  have hfull : packFull true (.struct 0 (List.replicate 65536 .null)) =
      ⟨[], [], some "TypeError: onError is not a function"⟩ := by
    simp only [packFull]
    rw [hbe, hrun, append_none]
    rfl
  rw [hfull]
  exact ⟨rfl, rfl⟩

/-- C7 (amended): pack-path failures split by call site.  An unencodable
value with `onError` supplied is reported through the callback with no
bytes emitted; an oversized string whose `packString` call received
`onError` is reported through the callback with no bytes for that string;
but `packStruct` and the map-key `packString` calls are made without
forwarding `onError`, so an oversized structure (even at top level) and an
oversized map key raise a host error instead of reporting; and after an
oversized list header is reported, the element bytes are still emitted. -/
theorem c7_pack_error_paths :
    (packFull true .undef =
      ⟨[], ["Cannot pack this value: undefined"], none⟩) ∧
    (∀ s : List Nat, 4294967296 ≤ s.length →
      packString s true = ⟨[], ["UTF-8 strings of size " ++
        toString s.length ++ " are not supported"], none⟩) ∧
    (∀ (b : Bool) (sig : Nat) (fs : List Value), 65536 ≤ fs.length →
      (packFull b (.struct sig fs)).thrown =
        some "TypeError: onError is not a function") ∧
    (∀ (b : Bool) (k : List Nat), 4294967296 ≤ k.length →
      (packFull b (.map [(.str k, .null)])).thrown =
        some "TypeError: onError is not a function") ∧
    (∀ xs : List Value, 4294967296 ≤ xs.length →
      (packFull true (.list xs)).bytes = (packRunListElems true xs).bytes ∧
      ("Lists of size " ++ toString xs.length ++ " are not supported") ∈
        (packFull true (.list xs)).errors) := by
  refine ⟨by decide, ?_, ?_, ?_, ?_⟩
  · intro s hs
    rw [packString_oversize s true (by omega), reportUnguarded_true]
  · intro b sig fs hlen
    rw [packFull_thrown]
    simp only [packRun]
    rw [packStructHeader_oversize _ _ _ (by omega), reportUnguarded_false,
      append_some]
  · intro b k hk
    have hkey : packString (keyToString (Value.str k)) false =
        ⟨[], [], some "TypeError: onError is not a function"⟩ := by
      rw [show keyToString (Value.str k) = k from rfl,
        packString_oversize k false (by omega), reportUnguarded_false]
    have hcount : (([(Value.str k, Value.null)] :
        List (Value × Value)).filter
        (fun e => !(e.2.isUndef))).length = 1 := by
      simp [Value.isUndef]
    rw [packFull_thrown]
    simp only [packRun]
    rw [hcount,
      append_thrown _ _ (show (packMapHeader 1 b).thrown = none from rfl)]
    simp only [packRunMapEntries]
    rw [if_neg (show ¬ ((Value.null).isUndef = true) from by decide)]
    rw [hkey, append_some, append_some]
  · intro xs hxs
    have hheader : packListHeader xs.length true =
        ⟨[], ["Lists of size " ++ toString xs.length ++
          " are not supported"], none⟩ := by
      rw [packListHeader_oversize _ _ (by omega), reportUnguarded_true]
    constructor
    · rw [packFull_bytes]
      simp only [packRun]
      rw [append_bytes _ _ (by rw [hheader]), hheader]
      rfl
    · simp only [packFull]
      rw [show buildErrors true (.list xs) = [] from rfl]
      simp only [packRun]
      rw [hheader, append_none, append_none]
      simp

/-- C7, witness: the failing shapes instantiated — an oversized string with
`onError` reports through the callback; an oversized structure and an
oversized map key raise; an oversized list still emits its body after
reporting. -/
theorem c7_pack_error_paths_witness :
    (packString (List.replicate 4294967296 (0 : Nat)) true).errors ≠ [] ∧
    (packFull true (.struct 0 (List.replicate 65536 .null))).thrown =
      some "TypeError: onError is not a function" ∧
    (packFull true (.map [(.str (List.replicate 4294967296 (0 : Nat)),
      .null)])).thrown = some "TypeError: onError is not a function" ∧
    (packFull true
        (.list (List.replicate 4294967296 Value.null))).bytes =
      (packRunListElems true (List.replicate 4294967296 Value.null)).bytes :=
  ⟨by
    have h := c7_pack_error_paths.2.1 (List.replicate 4294967296 (0 : Nat))
      (by rw [List.length_replicate])
    rw [h]
    exact List.cons_ne_nil _ _,
   c7_pack_error_paths.2.2.1 true 0 _ (by rw [List.length_replicate]),
   c7_pack_error_paths.2.2.2.1 true _ (by rw [List.length_replicate]),
   (c7_pack_error_paths.2.2.2.2 _ (by rw [List.length_replicate])).1⟩

/-- C1 (amended): for every in-grammar value — strings, lists and maps
below the 32-bit size tiers, map keys distinct strings, no undefined
anywhere, and structures of fewer than 256 fields — unpacking the packed
bytes with the default (empty) mapper registry returns exactly the value
and consumes exactly its bytes; in particular Int64 values round-trip
exactly across the full 64-bit signed range.  (The wire grammar admits
structures up to 65535 fields, but the STRUCT_16 pack tier omits the
signature byte, so structures of 256 fields and more do not survive; see
the counterexample.) -/
theorem c1_roundtrip (v : Value) (hwf : wf v = true) (fuel : Nat)
    (hfuel : nodes v ≤ fuel) :
    unpack noMappers fuel (packFull true v).bytes = .ok (v, []) := by
  have h := unpack_packFull fuel v hwf hfuel true []
  simpa using h

/-- C1, counterexample: a 256-field structure is within the size limits of
the wire grammar (structure sizes below 65536), yet it does not
round-trip — the STRUCT_16 header omits the signature byte, so the decoder
consumes the first field marker as the signature and runs off the end of
the input. -/
theorem c1_roundtrip_counterexample :
    unpack noMappers 300
        ((packFull true (.struct 78 (List.replicate 256 .null))).bytes) ≠
      .ok (.struct 78 (List.replicate 256 .null), []) := by
  have hfields : ∀ n : Nat,
      packRunStructFields true (List.replicate n Value.null) =
        prBytes (List.replicate n 0xC0) := by
    intro n
    induction n with
    | zero => rfl
    | succ m ih =>
        rw [List.replicate_succ, List.replicate_succ]
        simp only [packRunStructFields, packRun, ih]
        simp [PackResult.append, prBytes, wUInt8]
  have hbytes :
      (packFull true (.struct 78 (List.replicate 256 .null))).bytes =
        0xDD :: 0x01 :: 0x00 :: List.replicate 256 0xC0 := by
    rw [packFull_bytes]
    simp only [packRun]
    rw [append_bytes _ _ (packStructHeader_thrown _ _ _
      (by rw [List.length_replicate]; omega)),
      hfields, List.length_replicate]
    rw [show packStructHeader 256 78 false =
      ⟨[0xDD, 0x01, 0x00], [], none⟩ from by decide]
    rfl
  have hrun : ∀ m : Nat, ∀ f n : Nat, m < n →
      unpackN (unpack noMappers (f + 1)) n (List.replicate m 0xC0) =
        .error endOfStream := by
    intro m
    induction m with
    | zero =>
        intro f n h
        obtain ⟨p, rfl⟩ : ∃ p, n = p + 1 := ⟨n - 1, by omega⟩
        simp [unpackN, unpack, readUInt8, bind, Except.bind]
    | succ k ih =>
        intro f n h
        obtain ⟨p, rfl⟩ : ∃ p, n = p + 1 := ⟨n - 1, by omega⟩
        rw [List.replicate_succ]
        simp only [unpackN, bind, Except.bind]
        rw [unpack_null noMappers f _]
        dsimp only
        rw [ih f p (by omega)]
  have hout : unpack noMappers 300
      ((packFull true (.struct 78 (List.replicate 256 .null))).bytes) =
      .error endOfStream := by
    rw [hbytes, show (300 : Nat) = 299 + 1 from rfl,
      unpack_struct16 noMappers 299 0x01 0x00 _]
    rw [show List.replicate 256 (0xC0 : Nat) =
      0xC0 :: List.replicate 255 0xC0 from by rw [← List.replicate_succ]]
    simp only [unpackStruct, readUInt8, noMappers, bind, Except.bind]
    rw [show (299 : Nat) = 298 + 1 from rfl,
      hrun 255 298 (0x01 * 256 + 0x00) (by omega)]
  rw [hout]
  exact fun hcontra => nomatch hcontra

/-- C1, witness: a compound value exercising every variant — both 64-bit
extreme integers, a string, a map, a structure, a float, booleans and
null — round-trips. -/
theorem c1_roundtrip_witness :
    wf (Value.list [.int (-9223372036854775808), .int 9223372036854775807,
      .str [104, 105], .map [(.str [97], .bool true)], .struct 78 [.null],
      .float [64, 9, 33, 251, 84, 68, 45, 24], .bool false, .null]) =
      true ∧
    nodes (Value.list [.int (-9223372036854775808),
      .int 9223372036854775807, .str [104, 105],
      .map [(.str [97], .bool true)], .struct 78 [.null],
      .float [64, 9, 33, 251, 84, 68, 45, 24], .bool false, .null]) ≤
      32 ∧
    unpack noMappers 32 (packFull true
      (Value.list [.int (-9223372036854775808), .int 9223372036854775807,
        .str [104, 105], .map [(.str [97], .bool true)],
        .struct 78 [.null], .float [64, 9, 33, 251, 84, 68, 45, 24],
        .bool false, .null])).bytes =
      .ok (Value.list [.int (-9223372036854775808),
        .int 9223372036854775807, .str [104, 105],
        .map [(.str [97], .bool true)], .struct 78 [.null],
        .float [64, 9, 33, 251, 84, 68, 45, 24], .bool false, .null],
        []) :=
  ⟨by decide, by decide, c1_roundtrip _ (by decide) 32 (by decide)⟩

end PackStream
